

import Mathlib

/-!
# scantlsa: query engine, probe construction, collector and dispatcher

A shallow embedding of `main.go` and `sqlite.go` of the scantlsa scanner.

* The resolver exchange (`dns.Client.Exchange`) is nondeterministic; it is
  an argument `outs : Nat → Exchange`, the outcome of the k-th exchange
  (counting from 0) performed by the function under study.
* `time.Duration` is an `int64`; `timeout * 2` is taken with `wrapInt64`.
* Functions that print, query or call the database return the trace of what
  they did. The query functions end in a `Result`: a value, the exit of the
  process, or a nil dereference. In `processResponse` a nil dereference is
  the result `none`; the index-out-of-range panic of the dispatch loop is the
  flag `panicked` (the state `panicked` of the step relation).
* The library methods `(*dns.Msg).IsEdns0` and `(*dns.OPT).ExtendedRcode` are
  not part of the program: the first is the field `edns0` of a message, the
  second a parameter. The tables `dns.StringToType` and `dns.StringToClass`
  and `strings.ToUpper` are the parameter `lib`.
* The dispatcher goroutine and its workers are a step relation on `Sys`.
-/

namespace Scantlsa

/-! ## Go primitives -/

/-- Two's complement reduction of an integer to the range of Go's `int64`. -/
def wrapInt64 (x : Int) : Int := (x + 9223372036854775808) % 18446744073709551616 - 9223372036854775808

/-- The values an `int64` can hold. -/
def isInt64 (x : Int) : Prop := -9223372036854775808 ≤ x ∧ x < 9223372036854775808

/-- Go `strings.HasPrefix` on the characters of the two strings. -/
def hasPrefixChars : List Char → List Char → Bool
  | _, [] => true
  | [], _ :: _ => false
  | c :: cs, p :: ps => c == p && hasPrefixChars cs ps

/-- Go `strings.Contains` on the characters of the two strings. -/
def containsChars : List Char → List Char → Bool
  | [], sub => sub.isEmpty
  | c :: cs, sub => hasPrefixChars (c :: cs) sub || containsChars cs sub

/-- Go `strings.Contains(s, substr)`. -/
def stringsContains (s substr : String) : Bool := containsChars s.data substr.data

/-- Go `unicode.IsSpace`: the white space characters `strings.Fields` splits on. -/
def isSpace (c : Char) : Bool :=
  let n := c.toNat
  n == 9 || n == 10 || n == 11 || n == 12 || n == 13 || n == 32 || n == 133 || n == 160
    || n == 5760 || (8192 ≤ n && n ≤ 8202) || n == 8232 || n == 8233 || n == 8239
    || n == 8287 || n == 12288

/-- The scanning loop of Go `strings.Fields`: `cur` holds the characters of the
field being read, most recent first. -/
def fieldsChars : List Char → List Char → List String
  | [], cur => if cur.isEmpty then [] else [String.mk cur.reverse]
  | c :: cs, cur =>
    if isSpace c then
      (if cur.isEmpty then fieldsChars cs [] else String.mk cur.reverse :: fieldsChars cs [])
    else fieldsChars cs (c :: cur)

/-- Go `strings.Fields(s)`. -/
def stringsFields (s : String) : List String := fieldsChars s.data []

/-- A single hexadecimal digit, as `encoding/hex` reads it. -/
def hexDigit (c : Char) : Option Nat :=
  let n := c.toNat
  if 48 ≤ n ∧ n ≤ 57 then some (n - 48)
  else if 97 ≤ n ∧ n ≤ 102 then some (n - 87)
  else if 65 ≤ n ∧ n ≤ 70 then some (n - 55)
  else none

/-- Go `hex.DecodeString` on the characters of the string: the bytes, or
nothing when the length is odd or a character is not a hexadecimal digit. -/
def hexDecodeChars : List Char → Option (List Nat)
  | [] => some []
  | [_] => none
  | a :: b :: rest =>
    match hexDigit a, hexDigit b, hexDecodeChars rest with
    | some x, some y, some bytes => some ((x * 16 + y) :: bytes)
    | _, _, _ => none

/-- Go `hex.DecodeString(s)`; `none` stands for a non-nil error. -/
def hexDecodeString (s : String) : Option (List Nat) := hexDecodeChars s.data

/-! ## Data model -/

/-- How a function of the program ends: with a value, with the process exiting
(`usage()`, `log.Fatalf`), or with a nil-pointer dereference. -/
inductive Result (α : Type) where
  | ok (a : α)
  | exit
  | nilDereference
deriving DecidableEq

/-- A Go `error` value as the program observes it: the text of `err.Error()`
and whether it is the sentinel `dns.ErrTruncated`. -/
structure GoError where
  text : String
  isErrTruncated : Bool
deriving DecidableEq

/-- The payload of a `*dns.TLSA` record the program reads. -/
structure TLSA where
  hdrName : String
  usage : Nat
  selector : Nat
  matchingType : Nat
  certificate : String
deriving DecidableEq

/-- Resource records of a section, a tagged union over the record kinds the
program tests for with a type assertion. -/
inductive RR where
  | tlsa (t : TLSA)
  | mx (hdrName : String) (preference : Nat) (mx : String)
  | srv (hdrName : String) (priority weight port : Nat) (target : String)
  | other (hdrName : String) (rrtype : Nat)
deriving DecidableEq

/-- The `*dns.OPT` pseudo-record: the program reads `Hdr.Ttl` (a `uint32`). -/
structure OPT where
  ttl : Nat
deriving DecidableEq

/-- The parts of `dns.Msg` the program reads: `MsgHdr.Rcode`,
`MsgHdr.AuthenticatedData`, `Answer`, and the record `IsEdns0()` returns. -/
structure Msg where
  rcode : Int
  authenticatedData : Bool
  answer : List RR
  edns0 : Option OPT
deriving DecidableEq

/-- The record `EdnsoptStruct`: a generic EDNS option, its data hex-encoded. -/
structure EdnsoptStruct where
  code : Nat
  data : String
deriving DecidableEq

/-- The fields of `OptionsStruct` read by the query engine; `server0` is
`Options.servers[0]`, which `main` has evaluated before any query is made. -/
structure OptionsStruct where
  port : Int
  itimeout : Int
  tcptimeout : Int
  retries : Int
  edns : Bool
  edns_flags : Nat
  edns_opt : List EdnsoptStruct
  dnssec : Bool
  bufsize : Nat
  server0 : String
deriving DecidableEq

/-- The tables of the DNS library the program looks names up in, with
`strings.ToUpper`: `stringToType` is `dns.StringToType`, `stringToClass` is
`dns.StringToClass`. The library knows the types TLSA (52), MX (15) and
SRV (33) and the class IN (1). -/
structure DnsLib where
  toUpper : String → String
  stringToType : String → Option Nat
  stringToClass : String → Option Nat
  type_TLSA : stringToType (toUpper "TLSA") = some 52
  type_MX : stringToType (toUpper "MX") = some 15
  type_SRV : stringToType (toUpper "SRV") = some 33
  class_IN : stringToClass (toUpper "IN") = some 1

/-- A generic EDNS option as `makeOptRR` appends it (`dns.EDNS0_LOCAL`). -/
structure EdnsLocal where
  code : Nat
  data : List Nat
deriving DecidableEq

/-- The OPT pseudo-record `makeOptRR` builds: owner name, type, the size given
to `SetUDPSize`, whether `SetDo` was called, the flags or-ed into `Hdr.Ttl`,
and the options appended. -/
structure QueryOPT where
  name : String
  rrtype : Nat
  udpSize : Nat
  setDo : Bool
  ttlFlags : Nat
  option : List EdnsLocal
deriving DecidableEq

/-- What one `c.Exchange(m, addr)` gives back: `(response, rtt, err)`. -/
structure Exchange where
  response : Option Msg
  rtt : Int
  err : Option GoError
deriving DecidableEq

/-- The value `dns.Question{qname, qtype_int, qclass_int}`. -/
structure Question where
  qname : String
  qtype : Nat
  qclass : Nat
deriving DecidableEq

/-- The message `makeMessage` builds (its random `Id` left out). -/
structure QueryMsg where
  recursionDesired : Bool
  authenticatedData : Bool
  checkingDisabled : Bool
  extra : List QueryOPT
  question : Question
deriving DecidableEq

/-- One call of `sendRequest`: the message, the transport and the timeout. -/
structure SendCall where
  m : QueryMsg
  use_tcp : Bool
  timeout : Int
deriving DecidableEq

/-- The four results `(response, server, rtt, err)` of `sendRequest` and `doQuery`. -/
structure QueryResult where
  response : Option Msg
  server : String
  rtt : Int
  err : Option GoError
deriving DecidableEq

/-- The result of `doQuery` with the calls of `sendRequest` it made, in order. -/
structure DoQueryOut where
  res : QueryResult
  calls : List SendCall
deriving DecidableEq

/-! ## Query engine (`main.go`, `makeOptRR`, `makeMessage`, `sendRequest`, `doQuery`) -/

/-- The value of `BufsizeDefault`. -/
def BufsizeDefault : Nat := 4096

/-- The loop over `Options.edns_opt` of `makeOptRR`: each option with its data
decoded; the process exits (`log.Fatalf`) at the first undecodable one. -/
def decodeEdnsOpts : List EdnsoptStruct → Result (List EdnsLocal)
  | [] => Result.ok []
  | o :: rest =>
    match hexDecodeString o.data with
    | none => Result.exit
    | some h =>
      match decodeEdnsOpts rest with
      | Result.ok es => Result.ok (⟨o.code, h⟩ :: es)
      | Result.exit => Result.exit
      | Result.nilDereference => Result.nilDereference

/-- The function `makeOptRR()`. -/
def makeOptRR (opts : OptionsStruct) : Result QueryOPT :=
  match decodeEdnsOpts opts.edns_opt with
  | Result.ok es =>
    Result.ok
      { name := ".", rrtype := 41,
        udpSize := if opts.bufsize > 0 then opts.bufsize else BufsizeDefault,
        setDo := opts.dnssec,
        ttlFlags := opts.edns_flags,
        option := es }
  | Result.exit => Result.exit
  | Result.nilDereference => Result.nilDereference

/-- The additional section `makeMessage` starts with: the OPT record when
`Options.edns` is set. -/
def makeExtra (opts : OptionsStruct) : Result (List QueryOPT) :=
  if opts.edns then
    match makeOptRR opts with
    | Result.ok opt => Result.ok [opt]
    | Result.exit => Result.exit
    | Result.nilDereference => Result.nilDereference
  else Result.ok []

/-- The function `makeMessage(qname, qtype, qclass)`. The process exits when an
EDNS option cannot be decoded, and through `usage()` when the type or the
class is not in the library's table. -/
def makeMessage (lib : DnsLib) (opts : OptionsStruct) (qname qtype qclass : String) :
    Result QueryMsg :=
  match makeExtra opts with
  | Result.ok extra =>
    match lib.stringToType (lib.toUpper qtype) with
    | none => Result.exit
    | some qtype_int =>
      match lib.stringToClass (lib.toUpper qclass) with
      | none => Result.exit
      | some qclass_int =>
        Result.ok
          { recursionDesired := true, authenticatedData := true, checkingDisabled := true,
            extra := extra, question := ⟨qname, qtype_int, qclass_int⟩ }
  | Result.exit => Result.exit
  | Result.nilDereference => Result.nilDereference

/-- The function `sendRequest`: the exchange outcome `ex` with the server
`Options.servers[0]` added. -/
def sendRequest (opts : OptionsStruct) (ex : Exchange) : QueryResult :=
  { response := ex.response, server := opts.server0, rtt := ex.rtt, err := ex.err }

/-- The test `strings.Contains(err.Error(), "i/o timeout")`. -/
def isTimeoutError (e : GoError) : Bool := stringsContains e.text "i/o timeout"

/-- The zero values of the named results of `doQuery`. -/
def zeroResult : QueryResult := { response := none, server := "", rtt := 0, err := none }

/-- The loop `for retries > 0` of `doQuery`. `retries` is the loop variable
(positive exactly when the loop body runs), `timeout` the current timeout,
`k` the number of exchanges made so far, `cur` the current values of the
named results, `calls` the calls made so far, most recent last. -/
def doQueryLoop (opts : OptionsStruct) (m : QueryMsg) (outs : Nat → Exchange) :
    Nat → Int → Nat → QueryResult → List SendCall → DoQueryOut
  | 0, _, _, cur, calls => ⟨cur, calls⟩
  | retries + 1, timeout, k, _, calls =>
    let r := sendRequest opts (outs k)
    let calls1 := calls ++ [⟨m, false, timeout⟩]
    match r.err with
    | none => ⟨r, calls1⟩
    | some e =>
      if !isTimeoutError e then ⟨r, calls1⟩
      else
        let timeout1 := if retries > 0 then wrapInt64 (timeout * 2) else timeout
        doQueryLoop opts m outs retries timeout1 (k + 1) r calls1

/-- The function `doQuery(qname, qtype, qclass, use_tcp)`. -/
def doQuery (lib : DnsLib) (opts : OptionsStruct) (outs : Nat → Exchange)
    (qname qtype qclass : String) (use_tcp : Bool) : Result DoQueryOut :=
  match makeMessage lib opts qname qtype qclass with
  | Result.ok m =>
    if use_tcp then
      Result.ok ⟨sendRequest opts (outs 0), [⟨m, true, opts.tcptimeout⟩]⟩
    else
      Result.ok (doQueryLoop opts m outs opts.retries.toNat opts.itimeout 0 zeroResult [])
  | Result.exit => Result.exit
  | Result.nilDereference => Result.nilDereference

/-! ## Probes (`main.go`, `queryTLSA` and its callers) -/

/-- The record `ResponseInfo`. -/
structure ResponseInfo where
  zone : String
  service : String
  timestamp : Int
  qname : String
  qtype : String
  qclass : String
  tlsa_port : Nat
  tlsa_proto : String
  tlsa_base : String
  truncated : Bool
  retried : Bool
  timeout : Bool
  response : Option Msg
  ad_bit : Int
  alias_ : String
  rtt : Int
  err : Option GoError
  server : String
deriving DecidableEq

/-- What a worker has done so far: the results written to the `results`
channel and the calls of `sendRequest`, both in order. Every call of
`sendRequest` makes one exchange, so the next exchange is number
`calls.length`. -/
structure Run where
  pushed : List ResponseInfo
  calls : List SendCall
deriving DecidableEq

/-- The query name `queryTLSA` builds with `fmt.Sprintf`. -/
def tlsaQname (service : String) (port : Nat) (proto base : String) : String :=
  if service = "wild" then
    if proto = "" then "*." ++ base
    else "*._" ++ proto ++ "." ++ base
  else "_" ++ toString port ++ "._" ++ proto ++ "." ++ base

/-- The comparison `err == dns.ErrTruncated`. -/
def isErrTruncated : Option GoError → Bool
  | some e => e.isErrTruncated
  | none => false

/-- The function `queryTLSA(zone, service, port, proto, base)`. `clock n` is what
`time.Now().Unix()` returns when `n` results have been written. -/
def queryTLSA (lib : DnsLib) (opts : OptionsStruct) (clock : Nat → Int) (net : Nat → Exchange)
    (st : Run) (zone service : String) (port : Nat) (proto base : String) : Result Run :=
  let qname := tlsaQname service port proto base
  match doQuery lib opts (fun k => net (st.calls.length + k)) qname "TLSA" "IN" false with
  | Result.ok q =>
    let truncated := isErrTruncated q.res.err
    let timeout :=
      match q.res.err with
      | some e => !isTimeoutError e
      | none => false
    let r : ResponseInfo :=
      { zone := zone, service := service, timestamp := clock st.pushed.length,
        qname := qname, qtype := "TLSA", qclass := "IN",
        tlsa_port := port, tlsa_proto := proto, tlsa_base := base,
        truncated := truncated, retried := false, timeout := timeout,
        response := q.res.response, ad_bit := 0, alias_ := "",
        rtt := q.res.rtt, err := q.res.err, server := q.res.server }
    Result.ok { pushed := st.pushed ++ [r], calls := st.calls ++ q.calls }
  | Result.exit => Result.exit
  | Result.nilDereference => Result.nilDereference

/-- Sequencing of two steps of a worker: the second runs on the state the first
ends with. -/
def Result.andThen {α β : Type} (x : Result α) (f : α → Result β) : Result β :=
  match x with
  | Result.ok a => f a
  | Result.exit => Result.exit
  | Result.nilDereference => Result.nilDereference

/-- The function `queryWildCardTLSA(zone)`. -/
def queryWildCardTLSA (lib : DnsLib) (opts : OptionsStruct) (clock : Nat → Int)
    (net : Nat → Exchange) (st : Run) (zone : String) : Result Run :=
  (queryTLSA lib opts clock net st zone "wild" 0 "tcp" zone).andThen fun st1 =>
  queryTLSA lib opts clock net st1 zone "wild" 0 "" zone

/-- The function `queryWebTLSA(zone, prefix, port)`. -/
def queryWebTLSA (lib : DnsLib) (opts : OptionsStruct) (clock : Nat → Int)
    (net : Nat → Exchange) (st : Run) (zone pfx : String) (port : Nat) : Result Run :=
  if pfx = "" then queryTLSA lib opts clock net st zone "http" port "tcp" zone
  else queryTLSA lib opts clock net st zone "http" port "tcp" (pfx ++ "." ++ zone)

/-- The three probes `queryMailTLSA` makes for one target host. -/
def mailProbes (lib : DnsLib) (opts : OptionsStruct) (clock : Nat → Int)
    (net : Nat → Exchange) (st : Run) (zone target : String) : Result Run :=
  (queryTLSA lib opts clock net st zone "smtp" 25 "tcp" target).andThen fun st1 =>
  (queryTLSA lib opts clock net st1 zone "smtp" 465 "tcp" target).andThen fun st2 =>
  queryTLSA lib opts clock net st2 zone "smtp" 587 "tcp" target

/-- The loop `for _, rr := range response.Answer` of `queryMailTLSA`. -/
def mailLoop (lib : DnsLib) (opts : OptionsStruct) (clock : Nat → Int) (net : Nat → Exchange)
    (zone : String) : List RR → Run → Result Run
  | [], st => Result.ok st
  | RR.mx _ _ host :: rest, st =>
    (mailProbes lib opts clock net st zone host).andThen fun st1 =>
    mailLoop lib opts clock net zone rest st1
  | _ :: rest, st => mailLoop lib opts clock net zone rest st

/-- The function `queryMailTLSA(zone)`. -/
def queryMailTLSA (lib : DnsLib) (opts : OptionsStruct) (clock : Nat → Int)
    (net : Nat → Exchange) (st : Run) (zone : String) : Result Run :=
  (doQuery lib opts (fun k => net (st.calls.length + k)) zone "MX" "IN" false).andThen fun q =>
  let st1 : Run := { st with calls := st.calls ++ q.calls }
  match q.res.err, q.res.response with
  | some _, _ => mailProbes lib opts clock net st1 zone zone
  | none, none => Result.nilDereference
  | none, some response =>
    if response.rcode ≠ 0 ∨ response.answer.length = 0 then
      mailProbes lib opts clock net st1 zone zone
    else mailLoop lib opts clock net zone response.answer st1

/-! ## Collector (`main.go`, `processResponse`; `sqlite.go`, `insertDB`) -/

/-- The arguments of `stmt.Exec` in `insertDB`, in the order of the columns. -/
structure InsertRow where
  zone : String
  service : String
  timestamp : Int
  name : String
  port : Nat
  proto : String
  usage : Nat
  selector : Nat
  mtype : Nat
  certdata : String
  ad_bit : Int
  alias_ : String
  validates : Int
  validates_info : String
deriving DecidableEq

/-- The lines the program prints, one constructor per format string. -/
inductive Diag where
  | queryFail (zone service qname : String) (err : GoError)
  | rcodeError (zone service qname : String) (rcode : Int)
  | insertError (r : ResponseInfo) (tlsa : TLSA) (err : String)
  | batchLineError (line : String)
deriving DecidableEq

/-- What `processResponse` does that is visible outside it: a call of
`insertDB` with the value of `*r` at the call and the record, or a printed line. -/
inductive Event where
  | insertDB (r : ResponseInfo) (tlsa : TLSA)
  | printf (d : Diag)
deriving DecidableEq

/-- The row `insertDB` passes to `stmt.Exec`. -/
def insertRow (now : Int) (r : ResponseInfo) (tlsa : TLSA) : InsertRow :=
  { zone := r.zone, service := r.service, timestamp := now, name := r.tlsa_base,
    port := r.tlsa_port, proto := r.tlsa_proto, usage := tlsa.usage,
    selector := tlsa.selector, mtype := tlsa.matchingType, certdata := tlsa.certificate,
    ad_bit := r.ad_bit, alias_ := r.alias_, validates := 0, validates_info := "" }

/-- The function `insertDB(db, stmt, r, tlsa)`: its result and the lines it
prints. `exec` is `stmt.Exec`, giving the error text or nothing. -/
def insertDB (exec : InsertRow → Option String) (now : Int) (r : ResponseInfo) (tlsa : TLSA) :
    Bool × List Diag :=
  match exec (insertRow now r tlsa) with
  | some err => (false, [Diag.insertError r tlsa err])
  | none => (true, [])

/-- The expression `(opt.Hdr.Ttl >> 24) & 0xff`. -/
def rcodeHiBits (opt : OPT) : Nat := (opt.ttl >>> 24) &&& 0xff

/-- The loop `for _, rr := range r.response.Answer` of `processResponse`. -/
def answerLoop (exec : InsertRow → Option String) (clock : Nat → Int) :
    List RR → ResponseInfo → List Event → ResponseInfo × List Event
  | [], r, tr => (r, tr)
  | RR.tlsa t :: rest, r, tr =>
    let r1 := if t.hdrName ≠ r.qname then { r with alias_ := t.hdrName } else r
    let ins := insertDB exec (clock tr.length) r1 t
    answerLoop exec clock rest r1 (tr ++ Event.insertDB r1 t :: ins.2.map Event.printf)
  | _ :: rest, r, tr => answerLoop exec clock rest r tr

/-- The status `processResponse` switches on: the header Rcode, overwritten by
`opt.ExtendedRcode()` when the message has an OPT record with non-zero high bits. -/
def effectiveRcode (extendedRcode : OPT → Int) (resp : Msg) : Int :=
  match resp.edns0 with
  | some opt => if rcodeHiBits opt ≠ 0 then extendedRcode opt else resp.rcode
  | none => resp.rcode

/-- The function `processResponse(db, stmt, r)`: the final value of `*r` and
the trace of `insertDB` calls and printed lines; `none` when the code
dereferences a nil response. `extendedRcode` is the library method
`(*dns.OPT).ExtendedRcode`. -/
def processResponse (extendedRcode : OPT → Int) (exec : InsertRow → Option String)
    (clock : Nat → Int) (r : ResponseInfo) : Option (ResponseInfo × List Event) :=
  match r.err, r.truncated with
  | some e, false => some (r, [Event.printf (Diag.queryFail r.zone r.service r.qname e)])
  | _, _ =>
    match r.response with
    | none => none
    | some resp =>
      let resp1 : Msg := { resp with rcode := effectiveRcode extendedRcode resp }
      let r1 : ResponseInfo := { r with response := some resp1 }
      if resp1.rcode = 0 ∨ resp1.rcode = 3 then
        let r2 : ResponseInfo := { r1 with ad_bit := if resp1.authenticatedData then 1 else 0 }
        some (answerLoop exec clock resp1.answer r2 [])
      else
        some (r1, [Event.printf (Diag.rcodeError r.zone r.service r.qname resp1.rcode)])

/-- The `insertDB` calls of a trace: the value of `*r` and the record of each. -/
def insertCalls : List Event → List (ResponseInfo × TLSA)
  | [] => []
  | Event.insertDB r t :: rest => (r, t) :: insertCalls rest
  | Event.printf _ :: rest => insertCalls rest

/-- The TLSA-typed records of a section, in order. -/
def tlsaRecords : List RR → List TLSA
  | [] => []
  | RR.tlsa t :: rest => t :: tlsaRecords rest
  | _ :: rest => tlsaRecords rest

/-- The exchange hosts of the MX-typed records of a section, in order. -/
def mxHosts : List RR → List String
  | [] => []
  | RR.mx _ _ host :: rest => host :: mxHosts rest
  | _ :: rest => mxHosts rest

/-! ## Dispatcher (`main.go`, `runBatchFile`, `queryZone`) -/

/-- What the dispatch loop of `runBatchFile` has done: the lines printed, the
zones for which `go queryZone(zone)` was executed, and whether the loop ended
in a run-time panic. -/
structure Dispatch where
  diags : List Diag
  spawned : List String
  panicked : Bool
deriving DecidableEq

/-- The loop `for scanner.Scan()` of `runBatchFile` over the lines the scanner
yields, ignoring the blocking of the token channel. `fields[0]` on an empty
slice is an index-out-of-range panic. -/
def dispatchLoop : List String → Dispatch → Dispatch
  | [], d => d
  | line :: rest, d =>
    match stringsFields line with
    | [] => { d with panicked := true }
    | zone :: _ =>
      if zone = "" then
        dispatchLoop rest { d with diags := d.diags ++ [Diag.batchLineError line] }
      else dispatchLoop rest { d with spawned := d.spawned ++ [zone] }

/-- Where the dispatcher goroutine of `runBatchFile` stands. -/
inductive DispatcherPC where
  /-- At the head of `for scanner.Scan()`. -/
  | scanning
  /-- After `wg.Add(1)`, at `tokens <- struct{}{}`. -/
  | acquiring (zone : String)
  /-- Token obtained, at `go queryZone(zone)`. -/
  | spawning (zone : String)
  /-- At `wg.Wait()`. -/
  | waiting
  /-- After `close(results)`. -/
  | closed
  /-- The process has died of a run-time panic. -/
  | panicked
deriving DecidableEq

/-- The state of the dispatcher and its workers. `tokens` is the number of
items buffered in the channel `tokens`, `wg` the WaitGroup counter, `running`
the number of `queryZone` goroutines started that have not yet executed
`<-tokens`, `releasing` the number that have and whose deferred `wg.Done()`
is still to run. -/
structure Sys where
  lines : List String
  pc : DispatcherPC
  tokens : Nat
  wg : Nat
  running : Nat
  releasing : Nat
  spawned : List String
  diags : List Diag
deriving DecidableEq

/-- The atomic steps of the system: one step of the dispatcher goroutine, a
worker executing `<-tokens`, a worker running its deferred `wg.Done()`, a
worker dying of a run-time panic in one of its probes. -/
inductive Action where
  | dispatcher
  | release
  | done
  | workerPanic
deriving DecidableEq

/-- The state in which `runBatchFile` starts its dispatcher goroutine. -/
def Sys.init (lines : List String) : Sys :=
  { lines := lines, pc := DispatcherPC.scanning, tokens := 0, wg := 0, running := 0,
    releasing := 0, spawned := [], diags := [] }

/-- One step of the dispatcher goroutine; `none` when it is blocked or ended.
`P` is the capacity of the channel `tokens`. -/
def dispatcherStep (P : Nat) (s : Sys) : Option Sys :=
  match s.pc with
  | DispatcherPC.scanning =>
    match s.lines with
    | [] => some { s with pc := DispatcherPC.waiting }
    | line :: rest =>
      match stringsFields line with
      | [] => some { s with lines := rest, pc := DispatcherPC.panicked }
      | zone :: _ =>
        if zone = "" then
          some { s with lines := rest, diags := s.diags ++ [Diag.batchLineError line] }
        else some { s with lines := rest, wg := s.wg + 1, pc := DispatcherPC.acquiring zone }
  | DispatcherPC.acquiring zone =>
    if s.tokens < P then some { s with tokens := s.tokens + 1, pc := DispatcherPC.spawning zone }
    else none
  | DispatcherPC.spawning zone =>
    some { s with running := s.running + 1, spawned := s.spawned ++ [zone],
                  pc := DispatcherPC.scanning }
  | DispatcherPC.waiting =>
    if s.wg = 0 then some { s with pc := DispatcherPC.closed } else none
  | DispatcherPC.closed => none
  | DispatcherPC.panicked => none

/-- One atomic step of the system; `none` when the action is not enabled. -/
def step (P : Nat) (s : Sys) (a : Action) : Option Sys :=
  if s.pc = DispatcherPC.panicked then none
  else
    match a with
    | Action.dispatcher => dispatcherStep P s
    | Action.release =>
      if 0 < s.running ∧ 0 < s.tokens then
        some { s with running := s.running - 1, tokens := s.tokens - 1,
                      releasing := s.releasing + 1 }
      else none
    | Action.done =>
      if 0 < s.releasing then some { s with releasing := s.releasing - 1, wg := s.wg - 1 }
      else none
    | Action.workerPanic =>
      if 0 < s.running then some { s with pc := DispatcherPC.panicked } else none

/-- The states the system can be in, for channel capacity `P` and the given
source lines. -/
inductive Reachable (P : Nat) (lines : List String) : Sys → Prop where
  | init : Reachable P lines (Sys.init lines)
  | step (s t : Sys) (a : Action) : Reachable P lines s → step P s a = some t →
      Reachable P lines t

/-! ## Vocabulary of the properties and concrete inputs -/

/-- An attempt ends the retry loop of `doQuery` when it succeeded or failed
with an error whose text does not contain "i/o timeout". -/
def attemptStops (ex : Exchange) : Bool :=
  match ex.err with
  | none => true
  | some e => !isTimeoutError e

/-- The statement `timeout = timeout * 2` on a `time.Duration`. -/
def doubleTimeout (t : Int) : Int := wrapInt64 (t * 2)

/-- The datagram branch of `doQuery` for a message already built. -/
def udpQuery (opts : OptionsStruct) (m : QueryMsg) (outs : Nat → Exchange) : DoQueryOut :=
  doQueryLoop opts m outs opts.retries.toNat opts.itimeout 0 zeroResult []

/-- The message `makeMessage` builds for a question, given the additional section. -/
def queryMsg (extra : List QueryOPT) (qname : String) (qtype qclass : Nat) : QueryMsg :=
  { recursionDesired := true, authenticatedData := true, checkingDisabled := true,
    extra := extra, question := ⟨qname, qtype, qclass⟩ }

/-- The result `queryTLSA` writes for the outcome `q` of its query, when
`pushed` results have been written before. -/
def tlsaInfo (clock : Nat → Int) (pushed : Nat) (zone service : String) (port : Nat)
    (proto base : String) (q : DoQueryOut) : ResponseInfo :=
  { zone := zone, service := service, timestamp := clock pushed,
    qname := tlsaQname service port proto base, qtype := "TLSA", qclass := "IN",
    tlsa_port := port, tlsa_proto := proto, tlsa_base := base,
    truncated := isErrTruncated q.res.err, retried := false,
    timeout := (match q.res.err with
      | some e => !isTimeoutError e
      | none => false),
    response := q.res.response, ad_bit := 0, alias_ := "",
    rtt := q.res.rtt, err := q.res.err, server := q.res.server }

/-- The value of a result, when there is one. -/
def Result.toOption {α : Type} : Result α → Option α
  | Result.ok a => some a
  | Result.exit => none
  | Result.nilDereference => none

/-- A library instance with a small table of types and classes and the upper
case of ASCII letters. -/
def dnsLib : DnsLib :=
  { toUpper := fun s => String.mk (s.data.map Char.toUpper),
    stringToType := fun s =>
      [("A", 1), ("NS", 2), ("CNAME", 5), ("SOA", 6), ("PTR", 12), ("MX", 15), ("TXT", 16),
       ("AAAA", 28), ("SRV", 33), ("TLSA", 52)].lookup s,
    stringToClass := fun s => [("IN", 1), ("CH", 3), ("HS", 4)].lookup s,
    type_TLSA := by decide,
    type_MX := by decide,
    type_SRV := by decide,
    class_IN := by decide }

/-- The default options: port 53, 2 s initial timeout, 5 s stream timeout,
3 retries (durations in nanoseconds), no EDNS. -/
def optsDefault : OptionsStruct :=
  { port := 53, itimeout := 2000000000, tcptimeout := 5000000000, retries := 3,
    edns := false, edns_flags := 0, edns_opt := [], dnssec := false, bufsize := 0,
    server0 := "127.0.0.1" }

/-- The options after `+time=-4611686019 +retry=2`: the timeout is
`time.Duration(-4611686019) * time.Second`. -/
def optsOverflow : OptionsStruct :=
  { optsDefault with itimeout := -4611686019000000000, retries := 2 }

/-- The options after `+ednsopt=10:zz`: an option whose data is not hexadecimal. -/
def optsBadEdns : OptionsStruct :=
  { optsDefault with edns := true, edns_opt := [⟨10, "zz"⟩] }

/-- The options after `+retry=0`. -/
def optsNoRetry : OptionsStruct := { optsDefault with retries := 0 }

/-- An exchange that ran into its deadline. -/
def exTimeout : Exchange :=
  { response := none, rtt := 0,
    err := some ⟨"read udp 127.0.0.1:40000->127.0.0.1:53: i/o timeout", false⟩ }

/-- An exchange refused by the peer. -/
def exRefused : Exchange :=
  { response := none, rtt := 0,
    err := some ⟨"read udp 127.0.0.1:40000->127.0.0.1:53: read: connection refused", false⟩ }

/-- An empty NOERROR response. -/
def msgEmpty : Msg := { rcode := 0, authenticatedData := false, answer := [], edns0 := none }

/-- An exchange answered with `msgEmpty`. -/
def exEmpty : Exchange := { response := some msgEmpty, rtt := 1000000, err := none }

/-- Two timeouts, then an answer. -/
def netTwoTimeouts (k : Nat) : Exchange := if k < 2 then exTimeout else exEmpty

/-- A clock that stands still. -/
def clockZero (_ : Nat) : Int := 0

/-- The state of a worker that has done nothing yet. -/
def runEmpty : Run := { pushed := [], calls := [] }

/-- The parameters of a probe as recorded in its `ResponseInfo`. -/
structure Probe where
  zone : String
  service : String
  port : Nat
  proto : String
  base : String
  qname : String
deriving DecidableEq

/-- The probe parameters of a result. -/
def ResponseInfo.probe (r : ResponseInfo) : Probe :=
  ⟨r.zone, r.service, r.tlsa_port, r.tlsa_proto, r.tlsa_base, r.qname⟩

/-- The calls `cs` are those of one datagram TLSA query per probe, in the order
of the probes: the query of a probe makes between 1 and `R` calls of
`sendRequest`, each for the probe's query name with type TLSA and class IN,
over the datagram transport. -/
inductive ProbeCalls (R : Int) : List Probe → List SendCall → Prop where
  | nil : ProbeCalls R [] []
  | cons (p : Probe) (ps : List Probe) (cs rest : List SendCall) :
      1 ≤ cs.length → (cs.length : Int) ≤ R →
      (∀ c ∈ cs, c.m.question = ⟨p.qname, 52, 1⟩ ∧ c.use_tcp = false) →
      ProbeCalls R ps rest → ProbeCalls R (p :: ps) (cs ++ rest)

/-- The probe `queryMailTLSA` makes for a target host and port. -/
def smtpProbe (zone target : String) (port : Nat) : Probe :=
  ⟨zone, "smtp", port, "tcp", target, "_" ++ toString port ++ "._tcp." ++ target⟩

/-- The three probes for one target host, in order. -/
def smtpProbes (zone target : String) : List Probe :=
  [smtpProbe zone target 25, smtpProbe zone target 465, smtpProbe zone target 587]

/-- The probes for a list of target hosts, in order. -/
def smtpProbesAll (zone : String) : List String → List Probe
  | [] => []
  | host :: rest => smtpProbes zone host ++ smtpProbesAll zone rest

/-- An MX answer naming one exchange host. -/
def msgOneMX : Msg :=
  { rcode := 0, authenticatedData := false,
    answer := [RR.mx "b.example." 10 "mail.b.example"], edns0 := none }

/-- The MX lookup is answered with `msgOneMX`, every later query with `msgEmpty`. -/
def netOneMX (k : Nat) : Exchange :=
  if k = 0 then { response := some msgOneMX, rtt := 1000000, err := none } else exEmpty

/-- The top eight bits of a 32-bit TTL field. -/
def ttlTopByte (ttl : Nat) : Nat := ttl / 2 ^ 24 % 256

/-- The status the collector acts on, in the words of the specification: the
header Rcode, replaced by the OPT record's extended Rcode when the top eight
bits of the OPT TTL are non-zero. -/
def effectiveStatus (extendedRcode : OPT → Int) (resp : Msg) : Int :=
  match resp.edns0 with
  | some opt => if ttlTopByte opt.ttl ≠ 0 then extendedRcode opt else resp.rcode
  | none => resp.rcode

/-- A TLSA query for `_443._tcp.example.com` answered with two TLSA records, the
first owned by another name, the second by the queried name. -/
def respTwoOwners : ResponseInfo :=
  { zone := "example.com", service := "http", timestamp := 0,
    qname := "_443._tcp.example.com", qtype := "TLSA", qclass := "IN",
    tlsa_port := 443, tlsa_proto := "tcp", tlsa_base := "example.com",
    truncated := false, retried := false, timeout := false,
    response := some
      { rcode := 0, authenticatedData := true,
        answer := [RR.tlsa ⟨"_443._tcp.host.example.net", 3, 1, 1, "aa"⟩,
                   RR.tlsa ⟨"_443._tcp.example.com", 3, 1, 1, "bb"⟩],
        edns0 := none },
    ad_bit := 0, alias_ := "", rtt := 0, err := none, server := "127.0.0.1" }

/-- A SERVFAIL response to the same query. -/
def respServfail : ResponseInfo :=
  { respTwoOwners with
    response := some { rcode := 2, authenticatedData := false, answer := [], edns0 := none } }

/-- The invariant of the token channel: every running worker holds a token, a
dispatcher about to start a worker holds one more, and the channel never
holds more than its capacity. -/
def tokenInv (P : Nat) (s : Sys) : Prop :=
  s.running ≤ s.tokens ∧ s.tokens ≤ P ∧
    ∀ zone, s.pc = DispatcherPC.spawning zone → s.running + 1 ≤ s.tokens

/-- The state after the dispatcher has read "example.com", obtained a token
and started the worker. -/
def sysOneRunning : Sys :=
  { lines := [], pc := DispatcherPC.scanning, tokens := 1, wg := 1, running := 1,
    releasing := 0, spawned := ["example.com"], diags := [] }

/-! ## Properties of the query engine -/

theorem wrapInt64_of_isInt64 (x : Int) (h : isInt64 x) : wrapInt64 x = x := by
  unfold isInt64 at h
  unfold wrapInt64
  omega

theorem wrapInt64_double (x : Int) : wrapInt64 (wrapInt64 x * 2) = wrapInt64 (x * 2) := by
  unfold wrapInt64
  omega

theorem doubleTimeout_iterate (T : Int) (hT : isInt64 T) (i : Nat) :
    doubleTimeout^[i] T = wrapInt64 (T * 2 ^ i) := by
  induction i with
  | zero => simp [wrapInt64_of_isInt64 T hT]
  | succ i ih =>
    rw [Function.iterate_succ_apply', ih]
    unfold doubleTimeout
    rw [wrapInt64_double, pow_succ, mul_assoc]

theorem isInt64_mul_pow_of_le (T : Int) (i n : Nat) (hin : i ≤ n) (h : isInt64 (T * 2 ^ n)) :
    isInt64 (T * 2 ^ i) := by
  unfold isInt64 at *
  have hp : (2 : Int) ^ i ≤ 2 ^ n := pow_le_pow_right₀ (by norm_num) hin
  have hi : (1 : Int) ≤ 2 ^ i := one_le_pow₀ (by norm_num)
  rcases le_or_lt 0 T with hT | hT
  · have h1 : T * 2 ^ i ≤ T * 2 ^ n := Int.mul_le_mul_of_nonneg_left hp hT
    have h2 : 0 ≤ T * 2 ^ i := Int.mul_nonneg hT (by omega)
    omega
  · have h1 : T * 2 ^ n ≤ T * 2 ^ i := Int.mul_le_mul_of_nonpos_left (le_of_lt hT) hp
    have h2 : T * 2 ^ i ≤ 0 := Int.mul_nonpos_of_nonpos_of_nonneg (le_of_lt hT) (by omega)
    omega

theorem range_succ_map_shift {α : Type} (f : Nat → α) (j : Nat) :
    (List.range (j + 1)).map f = f 0 :: (List.range j).map (fun i => f (i + 1)) := by
  rw [List.range_succ_eq_map, List.map_cons, List.map_map]
  rfl

/-- The retry loop entered with `n + 1` retries left makes `j` attempts,
`1 ≤ j ≤ n + 1`, with the timeout doubled from one to the next; none but
the last stops the loop, the last stops it or uses up the retries, and the
loop returns the outcome of the last. -/
theorem doQueryLoop_spec (opts : OptionsStruct) (m : QueryMsg) (outs : Nat → Exchange) (n : Nat) :
    ∀ (timeout : Int) (k : Nat) (cur : QueryResult) (calls : List SendCall),
      ∃ j : Nat, 1 ≤ j ∧ j ≤ n + 1 ∧
        (doQueryLoop opts m outs (n + 1) timeout k cur calls).calls =
          calls ++ (List.range j).map (fun i => (⟨m, false, doubleTimeout^[i] timeout⟩ : SendCall)) ∧
        (∀ i, i + 1 < j → attemptStops (outs (k + i)) = false) ∧
        (attemptStops (outs (k + (j - 1))) = true ∨ j = n + 1) ∧
        (doQueryLoop opts m outs (n + 1) timeout k cur calls).res =
          sendRequest opts (outs (k + (j - 1))) := by
  induction n with
  | zero =>
    intro timeout k cur calls
    refine ⟨1, le_refl _, le_refl _, ?_, ?_, Or.inr rfl, ?_⟩
    · cases h : (outs k).err with
      | none => simp [doQueryLoop, sendRequest, h, List.range_succ]
      | some e =>
        cases ht : isTimeoutError e <;> simp [doQueryLoop, sendRequest, h, ht, List.range_succ]
    · intro i hi
      omega
    · cases h : (outs k).err with
      | none => simp [doQueryLoop, sendRequest, h, List.range_succ]
      | some e =>
        cases ht : isTimeoutError e <;> simp [doQueryLoop, sendRequest, h, ht, List.range_succ]
  | succ n ih =>
    intro timeout k cur calls
    cases h : (outs k).err with
    | none =>
      refine ⟨1, le_refl _, by omega, ?_, ?_, Or.inl ?_, ?_⟩
      · simp [doQueryLoop, sendRequest, h, List.range_succ]
      · intro i hi
        omega
      · simp [attemptStops, h]
      · simp [doQueryLoop, sendRequest, h, List.range_succ]
    | some e =>
      cases ht : isTimeoutError e with
      | false =>
        refine ⟨1, le_refl _, by omega, ?_, ?_, Or.inl ?_, ?_⟩
        · simp [doQueryLoop, sendRequest, h, ht, List.range_succ]
        · intro i hi
          omega
        · simp [attemptStops, h, ht]
        · simp [doQueryLoop, sendRequest, h, ht, List.range_succ]
      | true =>
        obtain ⟨j, hj1, hj2, hcalls, hpre, hlast, hres⟩ :=
          ih (wrapInt64 (timeout * 2)) (k + 1) (sendRequest opts (outs k))
            (calls ++ [⟨m, false, timeout⟩])
        have hunf : doQueryLoop opts m outs (n + 1 + 1) timeout k cur calls =
            doQueryLoop opts m outs (n + 1) (wrapInt64 (timeout * 2)) (k + 1)
              (sendRequest opts (outs k)) (calls ++ [⟨m, false, timeout⟩]) := by
          simp [doQueryLoop, sendRequest, h, ht]
        refine ⟨j + 1, by omega, by omega, ?_, ?_, ?_, ?_⟩
        · rw [hunf, hcalls, range_succ_map_shift]
          simp [Function.iterate_succ_apply, doubleTimeout]
        · intro i hi
          cases i with
          | zero => simp [attemptStops, h, ht]
          | succ i =>
            have := hpre i (by omega)
            rw [show k + (i + 1) = k + 1 + i by omega]
            exact this
        · rcases hlast with hl | hl
          · left
            rw [show k + (j + 1 - 1) = k + 1 + (j - 1) by omega]
            exact hl
          · right
            omega
        · rw [hunf, hres, show k + (j + 1 - 1) = k + 1 + (j - 1) by omega]

/-- With no retries configured the loop body never runs: no call is made and
the named results keep their zero values. -/
theorem udpQuery_no_retries (opts : OptionsStruct) (m : QueryMsg) (outs : Nat → Exchange)
    (hR : opts.retries ≤ 0) : udpQuery opts m outs = ⟨zeroResult, []⟩ := by
  have h0 : opts.retries.toNat = 0 := by omega
  simp [udpQuery, h0, doQueryLoop]

/-- The attempts of the datagram branch with at least one retry configured. -/
theorem udpQuery_attempts (opts : OptionsStruct) (m : QueryMsg) (outs : Nat → Exchange)
    (hR : 1 ≤ opts.retries) :
    ∃ n : Nat, 1 ≤ n ∧ (n : Int) ≤ opts.retries ∧
      (udpQuery opts m outs).calls =
        (List.range n).map (fun i => (⟨m, false, doubleTimeout^[i] opts.itimeout⟩ : SendCall)) ∧
      (∀ i, i + 1 < n → attemptStops (outs i) = false) ∧
      (attemptStops (outs (n - 1)) = true ∨ (n : Int) = opts.retries) ∧
      (udpQuery opts m outs).res = sendRequest opts (outs (n - 1)) := by
  obtain ⟨r, hr⟩ : ∃ r : Nat, opts.retries.toNat = r + 1 := ⟨opts.retries.toNat - 1, by omega⟩
  obtain ⟨j, hj1, hj2, hcalls, hpre, hlast, hres⟩ :=
    doQueryLoop_spec opts m outs r opts.itimeout 0 zeroResult []
  have hout : udpQuery opts m outs = doQueryLoop opts m outs (r + 1) opts.itimeout 0 zeroResult [] := by
    simp [udpQuery, hr]
  rw [← hout] at hcalls hres
  simp only [List.nil_append, Nat.zero_add] at hcalls hpre hlast hres
  refine ⟨j, hj1, by omega, hcalls, hpre, ?_, hres⟩
  rcases hlast with hl | hl
  · exact Or.inl hl
  · right
    omega

/-- The calls of the datagram branch: at most `R` of them, at least one when
`R ≥ 1`, all with the message given and over the datagram transport. -/
theorem udpQuery_calls (opts : OptionsStruct) (m : QueryMsg) (outs : Nat → Exchange) :
    (opts.retries ≤ 0 → (udpQuery opts m outs).calls = []) ∧
    (1 ≤ opts.retries → 1 ≤ (udpQuery opts m outs).calls.length ∧
      ((udpQuery opts m outs).calls.length : Int) ≤ opts.retries ∧
      (udpQuery opts m outs).res =
        sendRequest opts (outs ((udpQuery opts m outs).calls.length - 1))) ∧
    (∀ c ∈ (udpQuery opts m outs).calls, c.m = m ∧ c.use_tcp = false) := by
  rcases le_or_lt opts.retries 0 with hR | hR
  · rw [udpQuery_no_retries opts m outs hR]
    exact ⟨fun _ => rfl, fun h => absurd h (by omega), by simp⟩
  · obtain ⟨n, hn1, hn2, hcalls, _, _, hres⟩ := udpQuery_attempts opts m outs (by omega)
    have hlen : (udpQuery opts m outs).calls.length = n := by simp [hcalls]
    refine ⟨fun h => absurd h (by omega), fun _ => ⟨by omega, by omega, ?_⟩, ?_⟩
    · rw [hlen]
      exact hres
    · intro c hc
      rw [hcalls] at hc
      simp only [List.mem_map] at hc
      obtain ⟨i, _, hi⟩ := hc
      rw [← hi]
      exact ⟨rfl, rfl⟩

/-- A datagram query whose attempts before number `j` (from 0) all time out
and whose attempt `j` does not, with `j` below the retry count, returns the
outcome of attempt `j`. -/
theorem udpQuery_first_stop (opts : OptionsStruct) (m : QueryMsg) (outs : Nat → Exchange)
    (j : Nat) (hj : (j : Int) < opts.retries)
    (hpre : ∀ i, i < j → attemptStops (outs i) = false)
    (hstop : attemptStops (outs j) = true) :
    (udpQuery opts m outs).res = sendRequest opts (outs j) ∧
      (udpQuery opts m outs).calls.length = j + 1 := by
  obtain ⟨n, hn1, hn2, hcalls, hp, hl, hres⟩ := udpQuery_attempts opts m outs (by omega)
  have hlen : (udpQuery opts m outs).calls.length = n := by simp [hcalls]
  have hnj : n - 1 = j := by
    rcases Nat.lt_trichotomy (n - 1) j with h | h | h
    · rcases hl with hl | hl
      · rw [hpre (n - 1) h] at hl
        exact absurd hl (by simp)
      · omega
    · exact h
    · have := hp j (by omega)
      rw [hstop] at this
      exact absurd this (by simp)
  rw [hres, hlen, hnj]
  exact ⟨rfl, by omega⟩

theorem decodeEdnsOpts_ne_nil (os : List EdnsoptStruct) :
    decodeEdnsOpts os ≠ Result.nilDereference := by
  induction os with
  | nil => simp [decodeEdnsOpts]
  | cons o rest ih =>
    unfold decodeEdnsOpts
    cases hexDecodeString o.data with
    | none => simp
    | some h =>
      cases hd : decodeEdnsOpts rest with
      | ok es => simp
      | exit => simp
      | nilDereference => exact absurd hd ih

theorem makeExtra_ne_nil (opts : OptionsStruct) : makeExtra opts ≠ Result.nilDereference := by
  unfold makeExtra makeOptRR
  have h := decodeEdnsOpts_ne_nil opts.edns_opt
  cases hd : decodeEdnsOpts opts.edns_opt with
  | ok es => cases opts.edns <;> simp
  | exit => cases opts.edns <;> simp
  | nilDereference => exact absurd hd h

/-- The function `makeMessage` builds its message or exits; it dereferences nothing. -/
theorem makeMessage_ne_nil (lib : DnsLib) (opts : OptionsStruct) (qname qtype qclass : String) :
    makeMessage lib opts qname qtype qclass ≠ Result.nilDereference := by
  unfold makeMessage
  have h := makeExtra_ne_nil opts
  cases hd : makeExtra opts with
  | ok extra =>
    cases lib.stringToType (lib.toUpper qtype) with
    | none => simp
    | some t =>
      cases lib.stringToClass (lib.toUpper qclass) with
      | none => simp
      | some c => simp
  | exit => simp
  | nilDereference => exact absurd hd h

theorem makeMessage_TLSA (lib : DnsLib) (opts : OptionsStruct) (qname : String)
    (extra : List QueryOPT) (hextra : makeExtra opts = Result.ok extra) :
    makeMessage lib opts qname "TLSA" "IN" = Result.ok (queryMsg extra qname 52 1) := by
  simp [makeMessage, hextra, lib.type_TLSA, lib.class_IN, queryMsg]

theorem makeMessage_MX (lib : DnsLib) (opts : OptionsStruct) (qname : String)
    (extra : List QueryOPT) (hextra : makeExtra opts = Result.ok extra) :
    makeMessage lib opts qname "MX" "IN" = Result.ok (queryMsg extra qname 15 1) := by
  simp [makeMessage, hextra, lib.type_MX, lib.class_IN, queryMsg]

/-- Once the message is built, a datagram `doQuery` is the datagram branch. -/
theorem doQuery_udp_of_message (lib : DnsLib) (opts : OptionsStruct) (outs : Nat → Exchange)
    (qname qtype qclass : String) (m : QueryMsg)
    (hmsg : makeMessage lib opts qname qtype qclass = Result.ok m) :
    doQuery lib opts outs qname qtype qclass false = Result.ok (udpQuery opts m outs) := by
  simp [doQuery, hmsg, udpQuery]

/-- When the message cannot be built, `doQuery` exits as `makeMessage` does. -/
theorem doQuery_of_no_message (lib : DnsLib) (opts : OptionsStruct) (outs : Nat → Exchange)
    (qname qtype qclass : String) (use_tcp : Bool)
    (hmsg : ∀ m, makeMessage lib opts qname qtype qclass ≠ Result.ok m) :
    doQuery lib opts outs qname qtype qclass use_tcp = Result.exit := by
  unfold doQuery
  have h := makeMessage_ne_nil lib opts qname qtype qclass
  cases hd : makeMessage lib opts qname qtype qclass with
  | ok m => exact absurd hd (hmsg m)
  | exit => rfl
  | nilDereference => exact absurd hd h

/-- When the additional section can be built, `queryTLSA` makes one datagram
query for its name with type TLSA and class IN, writes one result and returns. -/
theorem queryTLSA_eq (lib : DnsLib) (opts : OptionsStruct) (clock : Nat → Int)
    (net : Nat → Exchange) (st : Run) (zone service : String) (port : Nat) (proto base : String)
    (extra : List QueryOPT) (hextra : makeExtra opts = Result.ok extra) :
    queryTLSA lib opts clock net st zone service port proto base =
      Result.ok
        { pushed := st.pushed ++
            [tlsaInfo clock st.pushed.length zone service port proto base
              (udpQuery opts (queryMsg extra (tlsaQname service port proto base) 52 1)
                (fun k => net (st.calls.length + k)))],
          calls := st.calls ++
            (udpQuery opts (queryMsg extra (tlsaQname service port proto base) 52 1)
              (fun k => net (st.calls.length + k))).calls } := by
  simp only [queryTLSA,
    doQuery_udp_of_message lib opts _ _ "TLSA" "IN" _ (makeMessage_TLSA lib opts _ extra hextra),
    tlsaInfo]

/-- Claim C1 as stated fails. After `+time=-4611686019 +retry=2`, with both
attempts timing out, the second attempt gets the timeout 9223372035709551616 ns,
which is not twice the first: the product does not fit a `time.Duration`. And
with the default options and `+ednsopt=10:zz`, `doQuery` makes no attempt at
all: the process exits in `makeMessage`. -/
theorem doQuery_udp_retry_schedule_counterexample :
    (doQuery dnsLib optsOverflow (fun _ => exTimeout) "example.com" "MX" "IN" false).toOption.map
        (fun out => out.calls.map (fun c => c.timeout)) =
      some [-4611686019000000000, 9223372035709551616] ∧
    (9223372035709551616 : Int) ≠ -4611686019000000000 * 2 ^ (2 - 1) ∧
    doQuery dnsLib optsBadEdns (fun _ => exTimeout) "example.com" "MX" "IN" false = Result.exit := by
  decide

/-- Claim C1, amended. When `makeMessage` builds the query message `m`, with
`use_tcp = false`, retry count `R ≥ 1` and initial timeout `T`, `doQuery`
returns, having made `n` attempts, `1 ≤ n ≤ R`; attempt `k` (from 1) is a
datagram `sendRequest` of `m` with timeout `T * 2 ^ (k - 1)` reduced to the
range of `int64` (the exact product whenever the last one fits the type); no
attempt before the last is a success or a non-timeout error; the last one is,
or `n = R`; the result is the outcome of the last attempt; and when every
attempt times out, `n = R` and the result is the timeout error. -/
theorem doQuery_udp_retry_schedule (lib : DnsLib) (opts : OptionsStruct) (outs : Nat → Exchange)
    (qname qtype qclass : String) (m : QueryMsg)
    (hmsg : makeMessage lib opts qname qtype qclass = Result.ok m)
    (hT : isInt64 opts.itimeout) (hR : 1 ≤ opts.retries) :
    ∃ out n, doQuery lib opts outs qname qtype qclass false = Result.ok out ∧
    out.calls.length = n ∧ 1 ≤ n ∧ (n : Int) ≤ opts.retries ∧
    out.calls = (List.range n).map (fun i =>
      (⟨m, false, wrapInt64 (opts.itimeout * 2 ^ i)⟩ : SendCall)) ∧
    (isInt64 (opts.itimeout * 2 ^ (n - 1)) →
      out.calls = (List.range n).map (fun i =>
        (⟨m, false, opts.itimeout * 2 ^ i⟩ : SendCall))) ∧
    (∀ i, i + 1 < n → attemptStops (outs i) = false) ∧
    (attemptStops (outs (n - 1)) = true ∨ (n : Int) = opts.retries) ∧
    out.res = sendRequest opts (outs (n - 1)) ∧
    ((∀ i, attemptStops (outs i) = false) →
      (n : Int) = opts.retries ∧
      ∃ e, out.res.err = some e ∧ isTimeoutError e = true ∧ (outs (n - 1)).err = some e) := by
  obtain ⟨n, hn1, hn2, hcalls, hpre, hlast, hres⟩ := udpQuery_attempts opts m outs hR
  have hcalls2 : (udpQuery opts m outs).calls = (List.range n).map (fun i =>
      (⟨m, false, wrapInt64 (opts.itimeout * 2 ^ i)⟩ : SendCall)) := by
    rw [hcalls]
    apply List.map_congr_left
    intro i _
    rw [doubleTimeout_iterate _ hT]
  refine ⟨udpQuery opts m outs, n, doQuery_udp_of_message lib opts outs qname qtype qclass m hmsg,
    by simp [hcalls], hn1, hn2, hcalls2, ?_, hpre, hlast, hres, ?_⟩
  · intro hfit
    rw [hcalls2]
    apply List.map_congr_left
    intro i hi
    have hi2 : i ≤ n - 1 := by
      have := List.mem_range.mp hi
      omega
    rw [wrapInt64_of_isInt64 _ (isInt64_mul_pow_of_le _ _ _ hi2 hfit)]
  · intro hall
    have hnR : (n : Int) = opts.retries := by
      rcases hlast with hl | hl
      · rw [hall] at hl
        exact absurd hl (by simp)
      · exact hl
    refine ⟨hnR, ?_⟩
    have hs := hall (n - 1)
    rw [hres]
    unfold attemptStops at hs
    cases he : (outs (n - 1)).err with
    | none => simp [he] at hs
    | some e =>
      rw [he] at hs
      refine ⟨e, by simp [sendRequest, he], ?_, rfl⟩
      simpa using hs

/-- Claim C1 amended, at the default options with every attempt timing out:
three attempts with timeouts 2 s, 4 s, 8 s. -/
theorem doQuery_udp_retry_schedule_witness :
    ∃ out, doQuery dnsLib optsDefault (fun _ => exTimeout) "_443._tcp.example.com" "TLSA" "IN"
        false = Result.ok out ∧
      out.calls = (List.range 3).map (fun i =>
        (⟨queryMsg [] "_443._tcp.example.com" 52 1, false, 2000000000 * 2 ^ i⟩ : SendCall)) := by
  obtain ⟨out, n, hq, hlen, _, _, _, hfit, _, _, _, hall⟩ :=
    doQuery_udp_retry_schedule dnsLib optsDefault (fun _ => exTimeout)
      "_443._tcp.example.com" "TLSA" "IN" (queryMsg [] "_443._tcp.example.com" 52 1)
      (by decide) (by unfold isInt64; decide) (by decide)
  have hn : (n : Int) = optsDefault.retries := (hall (fun _ => by decide)).1
  have hn3 : n = 3 := by
    have : optsDefault.retries = 3 := rfl
    omega
  subst hn3
  exact ⟨out, hq, hfit (by unfold isInt64; decide)⟩

/-- Claim C10 as stated fails: with 3 retries configured and `+ednsopt=10:zz`,
the datagram `doQuery` makes no attempt; the process exits in `makeMessage`. -/
theorem doQuery_attempts_iff_retries_counterexample :
    1 ≤ optsBadEdns.retries ∧
    doQuery dnsLib optsBadEdns (fun _ => exEmpty) "_443._tcp.example.com" "TLSA" "IN" false =
      Result.exit := by
  decide

/-- Claim C10, amended. When `makeMessage` builds the query message, a datagram
`doQuery` returns, and it has called `sendRequest` at least once exactly when
the retry count is at least 1. With a retry count of 0 or less it has made no
call and returns a nil response and a nil error, and `processResponse` on the
result `queryTLSA` then writes dereferences the nil response. With a retry
count of at least 1, and an exchange that gives a response whenever it gives
no error, a result without error carries a response. When `makeMessage` does
not build the message, `doQuery` makes no call whatever the retry count: the
process exits. -/
theorem doQuery_attempts_iff_retries (lib : DnsLib) (opts : OptionsStruct)
    (outs : Nat → Exchange) (qname qtype qclass : String) :
    (∀ m, makeMessage lib opts qname qtype qclass = Result.ok m →
      ∃ out, doQuery lib opts outs qname qtype qclass false = Result.ok out ∧
        (out.calls ≠ [] ↔ 1 ≤ opts.retries) ∧
        (∀ c ∈ out.calls, c.m = m ∧ c.use_tcp = false) ∧
        (opts.retries ≤ 0 →
          out.calls = [] ∧ out.res.response = none ∧ out.res.err = none) ∧
        (1 ≤ opts.retries →
          (∀ k, (outs k).err = none → (outs k).response ≠ none) →
          out.res.err = none → out.res.response ≠ none)) ∧
    ((∀ m, makeMessage lib opts qname qtype qclass ≠ Result.ok m) →
      doQuery lib opts outs qname qtype qclass false = Result.exit) ∧
    (opts.retries ≤ 0 → ∀ extra, makeExtra opts = Result.ok extra →
      ∀ (clock : Nat → Int) (st : Run) (zone service : String) (port : Nat) (proto base : String)
        (extendedRcode : OPT → Int) (exec : InsertRow → Option String) (clock2 : Nat → Int),
        ∃ r, queryTLSA lib opts clock outs st zone service port proto base =
            Result.ok ⟨st.pushed ++ [r], st.calls⟩ ∧
          r.err = none ∧ r.response = none ∧
          processResponse extendedRcode exec clock2 r = none) := by
  refine ⟨?_, ?_, ?_⟩
  · intro m hmsg
    obtain ⟨h0, h1, hmem⟩ := udpQuery_calls opts m outs
    refine ⟨udpQuery opts m outs, doQuery_udp_of_message lib opts outs qname qtype qclass m hmsg,
      ?_, hmem, ?_, ?_⟩
    · constructor
      · intro hne
        by_contra hR
        exact hne (h0 (by omega))
      · intro hR hnil
        have := (h1 hR).1
        rw [hnil] at this
        simp at this
    · intro hR
      rw [udpQuery_no_retries opts m outs hR]
      exact ⟨rfl, rfl, rfl⟩
    · intro hR hnet herr
      have hres := (h1 hR).2.2
      rw [hres] at herr ⊢
      exact hnet _ herr
  · intro hmsg
    exact doQuery_of_no_message lib opts outs qname qtype qclass false hmsg
  · intro hR extra hextra clock st zone service port proto base extendedRcode exec clock2
    refine ⟨tlsaInfo clock st.pushed.length zone service port proto base ⟨zeroResult, []⟩, ?_,
      rfl, rfl, ?_⟩
    · rw [queryTLSA_eq lib opts clock outs st zone service port proto base extra hextra,
        udpQuery_no_retries opts _ _ hR, List.append_nil]
    · simp [processResponse, tlsaInfo, zeroResult, isErrTruncated]

/-- Claim C10 amended, after `+retry=0`: the message is built, no call is made
and both the response and the error are nil. -/
theorem doQuery_attempts_iff_retries_witness :
    ∃ out, doQuery dnsLib optsNoRetry (fun _ => exEmpty) "example.com" "MX" "IN" false =
        Result.ok out ∧
      out.calls = [] ∧ out.res.response = none ∧ out.res.err = none := by
  obtain ⟨out, hq, _, _, h0, _⟩ :=
    (doQuery_attempts_iff_retries dnsLib optsNoRetry (fun _ => exEmpty) "example.com" "MX" "IN").1
      (queryMsg [] "example.com" 15 1) (by decide)
  exact ⟨out, hq, h0 (by decide)⟩

/-! ## Properties of the probes -/

theorem andThen_ok {α β : Type} (a : α) (f : α → Result β) : (Result.ok a).andThen f = f a := rfl

/-- Claim C6 as stated fails: with 3 retries and two timeouts before the
answer, the result written carries the answer and no error, and its
`retried` flag is false. -/
theorem queryTLSA_retried_counterexample :
    (queryTLSA dnsLib optsDefault clockZero netTwoTimeouts runEmpty
        "example.com" "http" 443 "tcp" "example.com").toOption.map
      (fun st => st.pushed.map (fun r => (r.response, r.err, r.retried))) =
    some [(some msgEmpty, none, false)] := by
  decide

/-- Claim C6, amended. When the attempts before number `j ≥ 1` all time out
and attempt `j`, below the retry count, succeeds, `queryTLSA` makes `j + 1`
calls and writes one result carrying the response of attempt `j` and no
error; its `retried` flag is false, as are `timeout` and `truncated`. The
query message is taken to be buildable, as the attempts were made. -/
theorem queryTLSA_success_after_timeouts (lib : DnsLib) (opts : OptionsStruct)
    (clock : Nat → Int) (net : Nat → Exchange) (st : Run) (zone service : String) (port : Nat)
    (proto base : String) (extra : List QueryOPT) (hextra : makeExtra opts = Result.ok extra)
    (j : Nat) (hj1 : 1 ≤ j) (hj : (j : Int) < opts.retries)
    (hpre : ∀ i, i < j → ∃ e, (net (st.calls.length + i)).err = some e ∧ isTimeoutError e = true)
    (hok : (net (st.calls.length + j)).err = none) :
    ∃ st1 r, queryTLSA lib opts clock net st zone service port proto base = Result.ok st1 ∧
      st1.pushed = st.pushed ++ [r] ∧
      st1.calls.length = st.calls.length + (j + 1) ∧
      r.response = (net (st.calls.length + j)).response ∧ r.err = none ∧
      r.retried = false ∧ r.timeout = false ∧ r.truncated = false := by
  have hq := udpQuery_first_stop opts (queryMsg extra (tlsaQname service port proto base) 52 1)
    (fun k => net (st.calls.length + k)) j hj
    (by
      intro i hi
      obtain ⟨e, he, ht⟩ := hpre i hi
      simp [attemptStops, he, ht])
    (by simp [attemptStops, hok])
  refine ⟨_, _, queryTLSA_eq lib opts clock net st zone service port proto base extra hextra,
    rfl, ?_, ?_, ?_, rfl, ?_, ?_⟩
  · simp [hq.2]
  · simp only [tlsaInfo, hq.1, sendRequest]
  · simp only [tlsaInfo, hq.1, sendRequest, hok]
  · simp only [tlsaInfo, hq.1, sendRequest, hok]
  · simp only [tlsaInfo, hq.1, sendRequest, hok, isErrTruncated]

/-- Claim C6 amended, at 3 retries and two timeouts before the answer. -/
theorem queryTLSA_success_after_timeouts_witness :
    ∃ st1 r, queryTLSA dnsLib optsDefault clockZero netTwoTimeouts runEmpty
        "example.com" "http" 443 "tcp" "example.com" = Result.ok st1 ∧
      st1.pushed = runEmpty.pushed ++ [r] ∧
      st1.calls.length = runEmpty.calls.length + (2 + 1) ∧
      r.response = (netTwoTimeouts (runEmpty.calls.length + 2)).response ∧ r.err = none ∧
      r.retried = false ∧ r.timeout = false ∧ r.truncated = false :=
  queryTLSA_success_after_timeouts dnsLib optsDefault clockZero netTwoTimeouts runEmpty
    "example.com" "http" 443 "tcp" "example.com" [] (by decide) 2 (by decide) (by decide)
    (by
      intro i hi
      interval_cases i
      · exact ⟨_, rfl, by decide⟩
      · exact ⟨_, rfl, by decide⟩)
    (by decide)

/-- The `timeout` flag of the result `queryTLSA` writes is set exactly when
the query failed with an error whose text does not contain "i/o timeout". -/
theorem queryTLSA_timeout_flag (lib : DnsLib) (opts : OptionsStruct) (clock : Nat → Int)
    (net : Nat → Exchange) (st : Run) (zone service : String) (port : Nat) (proto base : String)
    (extra : List QueryOPT) (hextra : makeExtra opts = Result.ok extra) :
    ∃ st1 r, queryTLSA lib opts clock net st zone service port proto base = Result.ok st1 ∧
      st1.pushed = st.pushed ++ [r] ∧
      (r.timeout = true ↔ ∃ e, r.err = some e ∧ isTimeoutError e = false) := by
  refine ⟨_, _, queryTLSA_eq lib opts clock net st zone service port proto base extra hextra,
    rfl, ?_⟩
  simp only [tlsaInfo]
  cases (udpQuery opts (queryMsg extra (tlsaQname service port proto base) 52 1)
    (fun k => net (st.calls.length + k))).res.err with
  | none => simp
  | some e => simp

/-- Claim C9, the code at two failing inputs. With one retry, a query that
fails with an "i/o timeout" error is written with `timeout = false`, and a
query that fails with "connection refused" is written with `timeout = true`. -/
theorem queryTLSA_timeout_flag_failing :
    (queryTLSA dnsLib { optsDefault with retries := 1 } clockZero (fun _ => exTimeout) runEmpty
        "example.com" "http" 443 "tcp" "example.com").toOption.map
      (fun st => st.pushed.map (fun r => (r.err.map isTimeoutError, r.timeout))) =
      some [(some true, false)] ∧
    (queryTLSA dnsLib { optsDefault with retries := 1 } clockZero (fun _ => exRefused) runEmpty
        "example.com" "http" 443 "tcp" "example.com").toOption.map
      (fun st => st.pushed.map (fun r => (r.err.map isTimeoutError, r.timeout))) =
      some [(some false, true)] := by
  decide

theorem tlsaQname_wild_tcp (zone : String) : tlsaQname "wild" 0 "tcp" zone = "*._tcp." ++ zone := by
  have h : ("*._" ++ "tcp" ++ "." : String) = "*._tcp." := by decide
  simp [tlsaQname, ← h, String.append_assoc]

theorem tlsaQname_wild_empty (zone : String) : tlsaQname "wild" 0 "" zone = "*." ++ zone := by
  simp [tlsaQname]

theorem tlsaQname_smtp (port : Nat) (target : String) :
    tlsaQname "smtp" port "tcp" target = "_" ++ toString port ++ "._tcp." ++ target := by
  have h : ("._" ++ "tcp" ++ "." : String) = "._tcp." := by decide
  have hs : ¬ ("smtp" = "wild") := by decide
  simp [tlsaQname, hs, ← h, String.append_assoc]

theorem ProbeCalls_append (R : Int) (ps qs : List Probe) (cs ds : List SendCall)
    (h1 : ProbeCalls R ps cs) (h2 : ProbeCalls R qs ds) : ProbeCalls R (ps ++ qs) (cs ++ ds) := by
  induction h1 with
  | nil => simpa using h2
  | cons p ps cs rest hlen hle hall _ ih =>
    rw [List.cons_append, List.append_assoc]
    exact ProbeCalls.cons p (ps ++ qs) cs (rest ++ ds) hlen hle hall ih

/-- With the additional section buildable and at least one retry, `queryTLSA`
writes one result with the probe parameters it was given and the query name
built from them, and makes between 1 and `R` datagram calls for that name,
type TLSA, class IN; the result carries the outcome of the last call. -/
theorem queryTLSA_probe (lib : DnsLib) (opts : OptionsStruct) (clock : Nat → Int)
    (net : Nat → Exchange) (st : Run) (zone service : String) (port : Nat) (proto base : String)
    (extra : List QueryOPT) (hextra : makeExtra opts = Result.ok extra) :
    ∃ r cs, queryTLSA lib opts clock net st zone service port proto base =
        Result.ok ⟨st.pushed ++ [r], st.calls ++ cs⟩ ∧
      r.probe = ⟨zone, service, port, proto, base, tlsaQname service port proto base⟩ ∧
      r.qtype = "TLSA" ∧ r.qclass = "IN" ∧
      (∀ c ∈ cs, c.m.question = ⟨tlsaQname service port proto base, 52, 1⟩ ∧
        c.use_tcp = false) ∧
      (opts.retries ≤ 0 → cs = []) ∧
      (1 ≤ opts.retries → 1 ≤ cs.length ∧ (cs.length : Int) ≤ opts.retries ∧
        r.response = (net (st.calls.length + (cs.length - 1))).response ∧
        r.err = (net (st.calls.length + (cs.length - 1))).err) := by
  obtain ⟨h0, h1, hmem⟩ := udpQuery_calls opts
    (queryMsg extra (tlsaQname service port proto base) 52 1) (fun k => net (st.calls.length + k))
  refine ⟨_, _, queryTLSA_eq lib opts clock net st zone service port proto base extra hextra,
    rfl, rfl, rfl, ?_, h0, ?_⟩
  · intro c hc
    obtain ⟨hm, hu⟩ := hmem c hc
    rw [hm]
    exact ⟨rfl, hu⟩
  · intro hR
    obtain ⟨ha, hb, hres⟩ := h1 hR
    refine ⟨ha, hb, ?_, ?_⟩
    · simp only [tlsaInfo, hres, sendRequest]
    · simp only [tlsaInfo, hres, sendRequest]

theorem mailProbes_ok (lib : DnsLib) (opts : OptionsStruct) (clock : Nat → Int)
    (net : Nat → Exchange) (st : Run) (zone target : String)
    (extra : List QueryOPT) (hextra : makeExtra opts = Result.ok extra) (hR : 1 ≤ opts.retries) :
    ∃ rs cs, mailProbes lib opts clock net st zone target =
        Result.ok ⟨st.pushed ++ rs, st.calls ++ cs⟩ ∧
      rs.map ResponseInfo.probe = smtpProbes zone target ∧
      ProbeCalls opts.retries (smtpProbes zone target) cs := by
  obtain ⟨r1, cs1, e1, p1, _, _, m1, _, b1⟩ :=
    queryTLSA_probe lib opts clock net st zone "smtp" 25 "tcp" target extra hextra
  obtain ⟨r2, cs2, e2, p2, _, _, m2, _, b2⟩ :=
    queryTLSA_probe lib opts clock net ⟨st.pushed ++ [r1], st.calls ++ cs1⟩
      zone "smtp" 465 "tcp" target extra hextra
  obtain ⟨r3, cs3, e3, p3, _, _, m3, _, b3⟩ :=
    queryTLSA_probe lib opts clock net ⟨st.pushed ++ [r1] ++ [r2], st.calls ++ cs1 ++ cs2⟩
      zone "smtp" 587 "tcp" target extra hextra
  rw [tlsaQname_smtp] at p1 p2 p3 m1 m2 m3
  refine ⟨[r1, r2, r3], cs1 ++ (cs2 ++ (cs3 ++ [])), ?_, ?_, ?_⟩
  · simp only [mailProbes, e1, andThen_ok, e2, e3]
    simp
  · simp only [List.map, p1, p2, p3, smtpProbes, smtpProbe]
  · exact ProbeCalls.cons _ _ cs1 _ (b1 hR).1 (b1 hR).2.1 m1
      (ProbeCalls.cons _ _ cs2 _ (b2 hR).1 (b2 hR).2.1 m2
        (ProbeCalls.cons _ _ cs3 _ (b3 hR).1 (b3 hR).2.1 m3 ProbeCalls.nil))

theorem mailLoop_ok (lib : DnsLib) (opts : OptionsStruct) (clock : Nat → Int)
    (net : Nat → Exchange) (zone : String) (extra : List QueryOPT)
    (hextra : makeExtra opts = Result.ok extra) (hR : 1 ≤ opts.retries) (answer : List RR) :
    ∀ st : Run, ∃ rs cs, mailLoop lib opts clock net zone answer st =
        Result.ok ⟨st.pushed ++ rs, st.calls ++ cs⟩ ∧
      rs.map ResponseInfo.probe = smtpProbesAll zone (mxHosts answer) ∧
      ProbeCalls opts.retries (smtpProbesAll zone (mxHosts answer)) cs := by
  induction answer with
  | nil =>
    intro st
    exact ⟨[], [], by simp [mailLoop], by simp [mxHosts, smtpProbesAll],
      by simpa [mxHosts, smtpProbesAll] using ProbeCalls.nil⟩
  | cons rr rest ih =>
    intro st
    cases rr with
    | mx n p host =>
      obtain ⟨rs1, cs1, e1, p1, c1⟩ := mailProbes_ok lib opts clock net st zone host extra hextra hR
      obtain ⟨rs2, cs2, e2, p2, c2⟩ := ih ⟨st.pushed ++ rs1, st.calls ++ cs1⟩
      refine ⟨rs1 ++ rs2, cs1 ++ cs2, ?_, ?_, ?_⟩
      · simp only [mailLoop, e1, andThen_ok, e2, List.append_assoc]
      · simp only [List.map_append, p1, p2, mxHosts, smtpProbesAll]
      · simpa only [mxHosts, smtpProbesAll] using ProbeCalls_append _ _ _ _ _ c1 c2
    | tlsa t => simpa [mailLoop, mxHosts] using ih st
    | srv n a b c d => simpa [mailLoop, mxHosts] using ih st
    | other n t => simpa [mailLoop, mxHosts] using ih st

/-- Claim C7 as stated fails at the outcome with neither error nor response.
After `+retry=0` the MX lookup for "a.example" makes no attempt and returns a
nil response and a nil error; `queryMailTLSA` then reads the Rcode of the nil
response: the process dies and no probe is issued, neither the three for the
zone itself nor any other. -/
theorem queryMailTLSA_probes_counterexample :
    doQuery dnsLib optsNoRetry (fun _ => exEmpty) "a.example" "MX" "IN" false =
      Result.ok ⟨zeroResult, []⟩ ∧
    queryMailTLSA dnsLib optsNoRetry clockZero (fun _ => exEmpty) runEmpty "a.example" =
      Result.nilDereference := by
  decide

/-- Claim C7, amended. Let the MX lookup be the datagram query `queryMailTLSA`
makes first, for the zone with type MX and class IN, and let it return an
error or a response. If it returned an error, or a response with a non-zero
Rcode or an empty answer section, `queryMailTLSA` issues exactly three probes,
for the zone itself at ports 25, 465, 587 in that order. If it returned no
error and a response with Rcode 0 and a non-empty answer section, it issues,
for each MX record of the answer in order, three probes for that record's
exchange host at ports 25, 465, 587, and nothing else. Every probe is tagged
service "smtp", proto "tcp", writes one result, and is a datagram TLSA query
of between 1 and `R` attempts for the name `_<port>._tcp.<target>`; these are
all the calls made after the lookup. -/
theorem queryMailTLSA_probes (lib : DnsLib) (opts : OptionsStruct) (clock : Nat → Int)
    (net : Nat → Exchange) (st : Run) (zone : String)
    (extra : List QueryOPT) (hextra : makeExtra opts = Result.ok extra) :
    ∃ lookup, doQuery lib opts (fun k => net (st.calls.length + k)) zone "MX" "IN" false =
        Result.ok lookup ∧
      (∀ c ∈ lookup.calls, c.m.question = ⟨zone, 15, 1⟩ ∧ c.use_tcp = false) ∧
      (∀ resp, (lookup.res.err ≠ none ∨
          (lookup.res.response = some resp ∧ (resp.rcode ≠ 0 ∨ resp.answer = []))) →
        ∃ rs cs, queryMailTLSA lib opts clock net st zone =
            Result.ok ⟨st.pushed ++ rs, st.calls ++ lookup.calls ++ cs⟩ ∧
          rs.map ResponseInfo.probe = smtpProbes zone zone ∧
          ProbeCalls opts.retries (smtpProbes zone zone) cs) ∧
      (∀ resp, lookup.res.err = none → lookup.res.response = some resp →
          resp.rcode = 0 → resp.answer ≠ [] →
        ∃ rs cs, queryMailTLSA lib opts clock net st zone =
            Result.ok ⟨st.pushed ++ rs, st.calls ++ lookup.calls ++ cs⟩ ∧
          rs.map ResponseInfo.probe = smtpProbesAll zone (mxHosts resp.answer) ∧
          ProbeCalls opts.retries (smtpProbesAll zone (mxHosts resp.answer)) cs) := by
  have hq := doQuery_udp_of_message lib opts (fun k => net (st.calls.length + k)) zone "MX" "IN" _
    (makeMessage_MX lib opts zone extra hextra)
  obtain ⟨_, _, hmem⟩ := udpQuery_calls opts (queryMsg extra zone 15 1)
    (fun k => net (st.calls.length + k))
  have hRpos : (udpQuery opts (queryMsg extra zone 15 1)
      (fun k => net (st.calls.length + k))).res ≠ zeroResult → 1 ≤ opts.retries := by
    intro hne
    by_contra hR
    rw [udpQuery_no_retries opts _ _ (by omega)] at hne
    exact hne rfl
  refine ⟨_, hq, ?_, ?_, ?_⟩
  · intro c hc
    obtain ⟨hm, hu⟩ := hmem c hc
    rw [hm]
    exact ⟨rfl, hu⟩
  · intro resp h
    have hR : 1 ≤ opts.retries := by
      apply hRpos
      intro hz
      rw [hz] at h
      simp [zeroResult] at h
    obtain ⟨rs, cs, e, p, c⟩ := mailProbes_ok lib opts clock net
      ⟨st.pushed, st.calls ++ (udpQuery opts (queryMsg extra zone 15 1)
        (fun k => net (st.calls.length + k))).calls⟩ zone zone extra hextra hR
    refine ⟨rs, cs, ?_, p, c⟩
    simp only [queryMailTLSA, hq, andThen_ok]
    cases herr : (udpQuery opts (queryMsg extra zone 15 1)
        (fun k => net (st.calls.length + k))).res.err with
    | some e0 => exact e
    | none =>
      rcases h with h | ⟨hresp, hcond⟩
      · exact absurd herr h
      · rw [hresp]
        have hc : resp.rcode ≠ 0 ∨ resp.answer.length = 0 := by
          rcases hcond with hc | hc
          · exact Or.inl hc
          · exact Or.inr (by simp [hc])
        simp only [hc, if_true]
        exact e
  · intro resp herr hresp hrc hans
    have hR : 1 ≤ opts.retries := by
      apply hRpos
      intro hz
      rw [hz] at hresp
      simp [zeroResult] at hresp
    obtain ⟨rs, cs, e, p, c⟩ := mailLoop_ok lib opts clock net zone extra hextra hR resp.answer
      ⟨st.pushed, st.calls ++ (udpQuery opts (queryMsg extra zone 15 1)
        (fun k => net (st.calls.length + k))).calls⟩
    refine ⟨rs, cs, ?_, p, c⟩
    simp only [queryMailTLSA, hq, andThen_ok]
    rw [herr, hresp]
    have hc : ¬ (resp.rcode ≠ 0 ∨ resp.answer.length = 0) := by
      intro h
      rcases h with h | h
      · exact h hrc
      · exact hans (List.length_eq_zero.mp h)
    simp only [hc, if_false]
    exact e

/-- Claim C7 amended, for zone "b.example" whose MX lookup names
"mail.b.example": three results, for "mail.b.example" at 25, 465, 587, each a
datagram TLSA query of 1 to 3 attempts. -/
theorem queryMailTLSA_probes_witness :
    ∃ lookup rs cs,
      doQuery dnsLib optsDefault (fun k => netOneMX (runEmpty.calls.length + k))
        "b.example" "MX" "IN" false = Result.ok lookup ∧
      queryMailTLSA dnsLib optsDefault clockZero netOneMX runEmpty "b.example" =
        Result.ok ⟨runEmpty.pushed ++ rs, runEmpty.calls ++ lookup.calls ++ cs⟩ ∧
      rs.map ResponseInfo.probe =
        [⟨"b.example", "smtp", 25, "tcp", "mail.b.example", "_25._tcp.mail.b.example"⟩,
         ⟨"b.example", "smtp", 465, "tcp", "mail.b.example", "_465._tcp.mail.b.example"⟩,
         ⟨"b.example", "smtp", 587, "tcp", "mail.b.example", "_587._tcp.mail.b.example"⟩] ∧
      ProbeCalls optsDefault.retries
        (smtpProbesAll "b.example" (mxHosts msgOneMX.answer)) cs := by
  obtain ⟨lookup, hl, _, _, h2⟩ :=
    queryMailTLSA_probes dnsLib optsDefault clockZero netOneMX runEmpty "b.example" []
      (by decide)
  have hd : doQuery dnsLib optsDefault (fun k => netOneMX (runEmpty.calls.length + k))
      "b.example" "MX" "IN" false = Result.ok ⟨sendRequest optsDefault (netOneMX 0),
    [⟨queryMsg [] "b.example" 15 1, false, 2000000000⟩]⟩ := by decide
  have hlk : lookup = ⟨sendRequest optsDefault (netOneMX 0),
      [⟨queryMsg [] "b.example" 15 1, false, 2000000000⟩]⟩ := by
    rw [hd] at hl
    exact (Result.ok.inj hl).symm
  subst hlk
  obtain ⟨rs, cs, hq, hp, hc⟩ := h2 msgOneMX (by decide) (by decide) (by decide) (by decide)
  exact ⟨_, rs, cs, hl, hq, hp.trans (by decide), hc⟩

/-- Claim C5 as stated fails: for zone "c.example" the first wildcard query is
for `*._tcp.c.example`, not `*.c.example`, and every call of both queries
goes over the datagram transport. -/
theorem queryWildCardTLSA_counterexample :
    (queryWildCardTLSA dnsLib optsDefault clockZero (fun _ => exEmpty) runEmpty
        "c.example").toOption.map (fun st => st.pushed.map (fun r => r.qname)) =
      some ["*._tcp.c.example", "*.c.example"] ∧
    (queryWildCardTLSA dnsLib optsDefault clockZero (fun _ => exEmpty) runEmpty
        "c.example").toOption.map
        (fun st => st.calls.map (fun c => (c.m.question.qname, c.use_tcp))) =
      some [("*._tcp.c.example", false), ("*.c.example", false)] := by
  decide

/-- Claim C5, amended. For every zone, when the query message can be built,
`queryWildCardTLSA` makes exactly two TLSA queries and writes their two
results, both tagged service "wild": the first with proto "tcp" and query name
`*._tcp.<zone>`, the second with an empty proto and query name `*.<zone>`.
With a retry count `R ≥ 1` each query makes between 1 and `R` calls of
`sendRequest`, all for its own name with type TLSA and class IN and all over
the datagram transport, and its result carries the outcome of its last call;
with `R ≤ 0` neither makes a call. -/
theorem queryWildCardTLSA_queries (lib : DnsLib) (opts : OptionsStruct) (clock : Nat → Int)
    (net : Nat → Exchange) (st : Run) (zone : String)
    (extra : List QueryOPT) (hextra : makeExtra opts = Result.ok extra) :
    ∃ r1 r2 cs1 cs2,
      queryWildCardTLSA lib opts clock net st zone =
        Result.ok ⟨st.pushed ++ [r1, r2], st.calls ++ cs1 ++ cs2⟩ ∧
      r1.probe = ⟨zone, "wild", 0, "tcp", zone, "*._tcp." ++ zone⟩ ∧
      r2.probe = ⟨zone, "wild", 0, "", zone, "*." ++ zone⟩ ∧
      r1.qtype = "TLSA" ∧ r2.qtype = "TLSA" ∧
      (∀ c ∈ cs1, c.m.question = ⟨"*._tcp." ++ zone, 52, 1⟩ ∧ c.use_tcp = false) ∧
      (∀ c ∈ cs2, c.m.question = ⟨"*." ++ zone, 52, 1⟩ ∧ c.use_tcp = false) ∧
      (opts.retries ≤ 0 → cs1 = [] ∧ cs2 = []) ∧
      (1 ≤ opts.retries →
        1 ≤ cs1.length ∧ (cs1.length : Int) ≤ opts.retries ∧
        1 ≤ cs2.length ∧ (cs2.length : Int) ≤ opts.retries ∧
        r1.response = (net (st.calls.length + (cs1.length - 1))).response ∧
        r1.err = (net (st.calls.length + (cs1.length - 1))).err ∧
        r2.response = (net (st.calls.length + cs1.length + (cs2.length - 1))).response ∧
        r2.err = (net (st.calls.length + cs1.length + (cs2.length - 1))).err) := by
  obtain ⟨r1, cs1, e1, p1, t1, _, m1, z1, b1⟩ :=
    queryTLSA_probe lib opts clock net st zone "wild" 0 "tcp" zone extra hextra
  obtain ⟨r2, cs2, e2, p2, t2, _, m2, z2, b2⟩ :=
    queryTLSA_probe lib opts clock net ⟨st.pushed ++ [r1], st.calls ++ cs1⟩
      zone "wild" 0 "" zone extra hextra
  rw [tlsaQname_wild_tcp] at p1 m1
  rw [tlsaQname_wild_empty] at p2 m2
  refine ⟨r1, r2, cs1, cs2, ?_, p1, p2, t1, t2, m1, m2, ?_, ?_⟩
  · simp only [queryWildCardTLSA, e1, andThen_ok, e2]
    simp
  · intro hR
    exact ⟨z1 hR, z2 hR⟩
  · intro hR
    obtain ⟨a1, a2, a3, a4⟩ := b1 hR
    obtain ⟨c1, c2, c3, c4⟩ := b2 hR
    simp only [List.length_append] at c3 c4
    exact ⟨a1, a2, c1, c2, a3, a4, c3, c4⟩

/-- Claim C5 amended, for zone "c.example" at the default options with both
queries answered at once: one datagram call for each of the two names. -/
theorem queryWildCardTLSA_queries_witness :
    ∃ r1 r2 cs1 cs2,
      queryWildCardTLSA dnsLib optsDefault clockZero (fun _ => exEmpty) runEmpty "c.example" =
        Result.ok ⟨runEmpty.pushed ++ [r1, r2], runEmpty.calls ++ cs1 ++ cs2⟩ ∧
      r1.probe = ⟨"c.example", "wild", 0, "tcp", "c.example", "*._tcp." ++ "c.example"⟩ ∧
      r2.probe = ⟨"c.example", "wild", 0, "", "c.example", "*." ++ "c.example"⟩ ∧
      1 ≤ cs1.length ∧ 1 ≤ cs2.length ∧
      (∀ c ∈ cs1, c.m.question = ⟨"*._tcp." ++ "c.example", 52, 1⟩ ∧ c.use_tcp = false) ∧
      (∀ c ∈ cs2, c.m.question = ⟨"*." ++ "c.example", 52, 1⟩ ∧ c.use_tcp = false) := by
  obtain ⟨r1, r2, cs1, cs2, h, p1, p2, _, _, m1, m2, _, hb⟩ :=
    queryWildCardTLSA_queries dnsLib optsDefault clockZero (fun _ => exEmpty) runEmpty
      "c.example" [] (by decide)
  obtain ⟨a1, _, a3, _⟩ := hb (by decide)
  exact ⟨r1, r2, cs1, cs2, h, p1, p2, a1, a3, m1, m2⟩

/-! ## Properties of the collector -/

theorem rcodeHiBits_eq (opt : OPT) : rcodeHiBits opt = ttlTopByte opt.ttl := by
  unfold rcodeHiBits ttlTopByte
  rw [Nat.shiftRight_eq_div_pow]
  exact Nat.and_pow_two_sub_one_eq_mod _ 8

theorem effectiveRcode_eq (extendedRcode : OPT → Int) (resp : Msg) :
    effectiveRcode extendedRcode resp = effectiveStatus extendedRcode resp := by
  unfold effectiveRcode effectiveStatus
  cases resp.edns0 with
  | none => rfl
  | some opt => simp only [rcodeHiBits_eq]

theorem insertCalls_append (a b : List Event) :
    insertCalls (a ++ b) = insertCalls a ++ insertCalls b := by
  induction a with
  | nil => rfl
  | cons e rest ih =>
    cases e with
    | insertDB r t => simp [insertCalls, ih]
    | printf d => simp [insertCalls, ih]

theorem insertCalls_printf (ds : List Diag) : insertCalls (ds.map Event.printf) = [] := by
  induction ds with
  | nil => rfl
  | cons d rest ih => simp [insertCalls, ih]

/-- The answer loop calls `insertDB` once for each TLSA-typed record, in
order, and prints nothing but what `insertDB` prints. -/
theorem answerLoop_calls (exec : InsertRow → Option String) (clock : Nat → Int)
    (answer : List RR) :
    ∀ (r : ResponseInfo) (tr : List Event),
      (insertCalls (answerLoop exec clock answer r tr).2).map Prod.snd =
        (insertCalls tr).map Prod.snd ++ tlsaRecords answer := by
  induction answer with
  | nil =>
    intro r tr
    simp [answerLoop, tlsaRecords]
  | cons rr rest ih =>
    intro r tr
    cases rr with
    | tlsa t =>
      simp only [answerLoop, tlsaRecords]
      rw [ih]
      simp [insertCalls_append, insertCalls, insertCalls_printf]
    | mx n p host => simpa [answerLoop, tlsaRecords] using ih r tr
    | srv n a b c d => simpa [answerLoop, tlsaRecords] using ih r tr
    | other n t => simpa [answerLoop, tlsaRecords] using ih r tr

/-- Claim C4. For a result that passes the failure check (no error, or
truncated) and carries a response: when the effective status is 0 or 3,
`processResponse` calls `insertDB` exactly once for each TLSA-typed record of
the answer section, in order, and for no other record; for any other
effective status it calls `insertDB` zero times and prints exactly one line,
the RCODE error. -/
theorem processResponse_status (extendedRcode : OPT → Int) (exec : InsertRow → Option String)
    (clock : Nat → Int) (r : ResponseInfo) (resp : Msg)
    (hpass : r.err = none ∨ r.truncated = true) (hresp : r.response = some resp) :
    ((effectiveStatus extendedRcode resp = 0 ∨ effectiveStatus extendedRcode resp = 3) →
      ∃ r1 tr, processResponse extendedRcode exec clock r = some (r1, tr) ∧
        (insertCalls tr).map Prod.snd = tlsaRecords resp.answer) ∧
    (¬ (effectiveStatus extendedRcode resp = 0 ∨ effectiveStatus extendedRcode resp = 3) →
      ∃ r1, processResponse extendedRcode exec clock r =
          some (r1, [Event.printf (Diag.rcodeError r.zone r.service r.qname
            (effectiveStatus extendedRcode resp))]) ∧
        insertCalls [Event.printf (Diag.rcodeError r.zone r.service r.qname
            (effectiveStatus extendedRcode resp))] = []) := by
  have hunf : processResponse extendedRcode exec clock r =
      if effectiveStatus extendedRcode resp = 0 ∨ effectiveStatus extendedRcode resp = 3 then
        some (answerLoop exec clock resp.answer
          { r with response := some { resp with rcode := effectiveStatus extendedRcode resp },
                   ad_bit := if resp.authenticatedData then 1 else 0 } [])
      else
        some ({ r with response := some { resp with rcode := effectiveStatus extendedRcode resp } },
          [Event.printf (Diag.rcodeError r.zone r.service r.qname
            (effectiveStatus extendedRcode resp))]) := by
    rcases hpass with h | h
    · simp only [processResponse, h, hresp, effectiveRcode_eq]
    · cases he : r.err <;> simp only [processResponse, he, h, hresp, effectiveRcode_eq]
  constructor
  · intro hst
    rw [hunf, if_pos hst]
    refine ⟨_, _, rfl, ?_⟩
    rw [answerLoop_calls]
    simp [insertCalls]
  · intro hst
    rw [hunf, if_neg hst]
    exact ⟨_, rfl, rfl⟩

/-- Claim C4, at a SERVFAIL response: one line is printed, nothing is inserted. -/
theorem processResponse_status_witness :
    ∃ r1, processResponse (fun opt => ((opt.ttl / 16777216 % 256 : Nat) : Int) * 16) (fun _ => none)
        clockZero respServfail =
      some (r1, [Event.printf (Diag.rcodeError "example.com" "http" "_443._tcp.example.com" 2)]) ∧
      insertCalls [Event.printf (Diag.rcodeError "example.com" "http" "_443._tcp.example.com" 2)]
        = [] :=
  (processResponse_status (fun opt => ((opt.ttl / 16777216 % 256 : Nat) : Int) * 16) (fun _ => none)
    clockZero respServfail
    { rcode := 2, authenticatedData := false, answer := [], edns0 := none }
    (Or.inl rfl) rfl).2 (by decide)

/-- Claim C8, the code at a failing input. The answer to a query for
`_443._tcp.example.com` holds a TLSA record owned by
`_443._tcp.host.example.net` and then one owned by the queried name.
`insertDB` is called for both; for the second, whose owner equals the queried
name, the alias passed is `_443._tcp.host.example.net`, not the empty string. -/
theorem processResponse_alias_failing :
    (processResponse (fun _ => 0) (fun _ => none) clockZero respTwoOwners).map
      (fun p => (insertCalls p.2).map (fun c => (c.2.hdrName, c.1.qname, c.1.alias_))) =
    some [("_443._tcp.host.example.net", "_443._tcp.example.com", "_443._tcp.host.example.net"),
          ("_443._tcp.example.com", "_443._tcp.example.com", "_443._tcp.host.example.net")] := by
  decide

/-! ## Properties of the dispatcher -/

theorem fieldsChars_ne_empty (cs : List Char) :
    ∀ (cur : List Char) (s : String), s ∈ fieldsChars cs cur → s ≠ "" := by
  induction cs with
  | nil =>
    intro cur s hs
    cases cur with
    | nil => simp [fieldsChars] at hs
    | cons c cur =>
      simp [fieldsChars] at hs
      rw [hs]
      intro h
      have := congrArg String.data h
      simp at this
  | cons c cs ih =>
    intro cur s hs
    unfold fieldsChars at hs
    split at hs
    · split at hs
      · exact ih [] s hs
      · rcases List.mem_cons.mp hs with h | h
        · rw [h]
          intro h2
          have := congrArg String.data h2
          simp at this
          simp_all
        · exact ih [] s h
    · exact ih (c :: cur) s hs

/-- The dispatch loop never prints: the field `strings.Fields` returns first is
never the empty string. -/
theorem dispatchLoop_diags (lines : List String) :
    ∀ d : Dispatch, (dispatchLoop lines d).diags = d.diags := by
  induction lines with
  | nil =>
    intro d
    rfl
  | cons line rest ih =>
    intro d
    unfold dispatchLoop
    cases hf : stringsFields line with
    | nil => rfl
    | cons zone more =>
      have hz : zone ≠ "" :=
        fieldsChars_ne_empty line.data [] zone (by
          unfold stringsFields at hf
          rw [hf]
          exact List.mem_cons_self _ _)
      simp only [hz, if_false]
      rw [ih]

/-- A source line with no field makes the loop panic where it stands. -/
theorem dispatchLoop_blank (line : String) (rest : List String) (d : Dispatch)
    (h : stringsFields line = []) :
    dispatchLoop (line :: rest) d = { d with panicked := true } := by
  simp [dispatchLoop, h]

/-- Claim C3, the code at the failing input. For the lines
`["example.com", "", "test.org"]` the loop starts the worker for
"example.com" and then panics on the blank line at `fields[0]`: no
line is printed and no worker is started for "test.org". For every list of
lines the loop prints nothing. -/
theorem dispatchLoop_blank_line_failing :
    dispatchLoop ["example.com", "", "test.org"] ⟨[], [], false⟩ =
      ⟨[], ["example.com"], true⟩ ∧
    ∀ lines : List String, (dispatchLoop lines ⟨[], [], false⟩).diags = [] :=
  ⟨by decide, fun lines => dispatchLoop_diags lines ⟨[], [], false⟩⟩

theorem tokenInv_init (P : Nat) (lines : List String) : tokenInv P (Sys.init lines) := by
  refine ⟨Nat.zero_le _, Nat.zero_le _, ?_⟩
  intro zone h
  simp [Sys.init] at h

theorem tokenInv_dispatcherStep (P : Nat) (s t : Sys) (hinv : tokenInv P s)
    (h : dispatcherStep P s = some t) : tokenInv P t := by
  obtain ⟨h1, h2, h3⟩ := hinv
  unfold dispatcherStep at h
  split at h
  · split at h
    · cases h
      exact ⟨h1, h2, by intro z hz; cases hz⟩
    · split at h
      · cases h
        exact ⟨h1, h2, by intro z hz; cases hz⟩
      · split at h
        · cases h
          refine ⟨h1, h2, ?_⟩
          intro z hz
          simp_all
        · cases h
          exact ⟨h1, h2, by intro z hz; cases hz⟩
  · split at h
    · cases h
      exact ⟨by simp only; omega, by simp only; omega, by intro z _; simp only; omega⟩
    · cases h
  · rename_i zone hpc
    cases h
    have := h3 zone hpc
    exact ⟨by simp only; omega, h2, by intro z hz; cases hz⟩
  · split at h
    · cases h
      exact ⟨h1, h2, by intro z hz; cases hz⟩
    · cases h
  · cases h
  · cases h

theorem tokenInv_step (P : Nat) (s t : Sys) (a : Action) (hinv : tokenInv P s)
    (h : step P s a = some t) : tokenInv P t := by
  unfold step at h
  split at h
  · cases h
  · cases a with
    | dispatcher => exact tokenInv_dispatcherStep P s t hinv h
    | release =>
      obtain ⟨h1, h2, h3⟩ := hinv
      simp only at h
      split at h
      · rename_i hg
        cases h
        refine ⟨by simp only; omega, by simp only; omega, ?_⟩
        intro z hz
        have := h3 z hz
        simp only
        omega
      · cases h
    | done =>
      obtain ⟨h1, h2, h3⟩ := hinv
      simp only at h
      split at h
      · cases h
        exact ⟨h1, h2, h3⟩
      · cases h
    | workerPanic =>
      obtain ⟨h1, h2, h3⟩ := hinv
      simp only at h
      split at h
      · cases h
        exact ⟨h1, h2, by intro z hz; cases hz⟩
      · cases h

theorem tokenInv_reachable (P : Nat) (lines : List String) (s : Sys)
    (h : Reachable P lines s) : tokenInv P s := by
  induction h with
  | init => exact tokenInv_init P lines
  | step s t a _ hst ih => exact tokenInv_step P s t a ih hst

theorem sysOneRunning_reachable : Reachable 1 ["example.com"] sysOneRunning := by
  have h0 : Reachable 1 ["example.com"] (Sys.init ["example.com"]) := Reachable.init
  have h1 := Reachable.step _
    { lines := [], pc := DispatcherPC.acquiring "example.com", tokens := 0, wg := 1,
      running := 0, releasing := 0, spawned := [], diags := [] }
    Action.dispatcher h0 (by decide)
  have h2 := Reachable.step _
    { lines := [], pc := DispatcherPC.spawning "example.com", tokens := 1, wg := 1,
      running := 0, releasing := 0, spawned := [], diags := [] }
    Action.dispatcher h1 (by decide)
  exact Reachable.step _ sysOneRunning Action.dispatcher h2 (by decide)

/-- Claim C2. For every capacity `P ≥ 1` of the token channel and every zone
source, in every reachable state of the dispatcher and its workers the number
of `queryZone` tasks started that have not yet released their token is at
most the number of tokens in the channel, which is at most `P`. -/
theorem running_workers_le_P (P : Nat) (lines : List String) (s : Sys)
    (hP : 1 ≤ P) (h : Reachable P lines s) :
    s.running ≤ P ∧ s.running ≤ s.tokens ∧ s.tokens ≤ P := by
  obtain ⟨h1, h2, _⟩ := tokenInv_reachable P lines s h
  exact ⟨le_trans h1 h2, h1, h2⟩

/-- Claim C2, at capacity 1 with one worker running: the bound is met. -/
theorem running_workers_le_P_witness :
    sysOneRunning.running = 1 ∧ sysOneRunning.running ≤ 1 :=
  ⟨rfl, (running_workers_le_P 1 ["example.com"] sysOneRunning (le_refl 1)
    sysOneRunning_reachable).1⟩

end Scantlsa
